import Mathlib

/-!
# rosflight_sim: the software-in-the-loop board (`sil_board.cpp`)

A shallow embedding of `SIL_Board`, the simulated flight-controller board of
`rosflight_sim`, and theorems about its scheduler, clock, sensors, PWM and
non-volatile memory operations, and about the frame conversions of the Gazebo
plugin `ROSflightSIL` (`rosflight_sil.cpp`).

Modelling conventions.

* The C++ object is the record `SIL_Board R`; every member function is a Lean
  function that takes the board (and what the function reads from Gazebo or ROS)
  and returns its result together with the board it leaves.
* `double` and `float` values are elements of a linearly ordered field `R`
  (`ℚ` for evaluation): arithmetic is exact, and rounding, NaN and infinities
  are outside the model.  A narrowing from `double` to `float` is the identity.
* `uint64_t`, `uint32_t`, `uint16_t` and `uint8_t` values are natural numbers;
  unsigned addition is taken modulo `2 ^ 64` where the source adds two
  `uint64_t` values.
* A C++ operation whose behaviour is undefined (an out-of-range conversion of a
  floating value to an unsigned integer, a store past the end of
  `pwm_outputs_`) yields `none`.
* What a function reads from its environment is an argument: the Gazebo state,
  the node handle, the number of publishers on the `RC` topic, the value that
  `system` returned, and the file system, which the memory functions pass on.
* Library functions are arguments too: `sin` and `cos` (`Libm`), `pow`, and
  `RotateVectorReverse` and `Length` of the Gazebo math library (`GazeboMath`).
  The products of `Eigen` are the matrix products of Mathlib.
-/

namespace rosflight_sim

/-! ## Data model -/

/-- Three-vector of Gazebo (`ignition::math::Vector3d`, `gazebo::math::Vector3`). -/
structure Vector3d (R : Type) where
  X : R
  Y : R
  Z : R

/-- Rotation quaternion of Gazebo (`ignition::math::Quaterniond`). -/
structure Quaterniond (R : Type) where
  W : R
  X : R
  Y : R
  Z : R

/-- Pose of Gazebo (`ignition::math::Pose3d`): a position and a rotation. -/
structure Pose3d (R : Type) where
  Pos : Vector3d R
  Rot : Quaterniond R

/-- What the board reads from Gazebo through `world_` and `link_` at one instant:
`world_->SimTime().Double()`, `world_->Gravity()`, `link_->WorldPose()`,
`link_->RelativeLinearVel()`, `link_->RelativeAngularVel()` and
`link_->WorldLinearAccel()`. -/
structure Gazebo (R : Type) where
  SimTime : R
  Gravity : Vector3d R
  WorldPose : Pose3d R
  RelativeLinearVel : Vector3d R
  RelativeAngularVel : Vector3d R
  WorldLinearAccel : Vector3d R

/-- The ROS node handle `nh_` as the board uses it: the parameters it looks up
(`none` when a parameter is not set) and its namespace (`nh_->getNamespace()`). -/
structure NodeHandle (R : Type) where
  gyro_stdev : Option R
  gyro_bias_range : Option R
  gyro_bias_walk_stdev : Option R
  acc_stdev : Option R
  acc_bias_range : Option R
  acc_bias_walk_stdev : Option R
  mag_stdev : Option R
  mag_bias_range : Option R
  mag_bias_walk_stdev : Option R
  baro_stdev : Option R
  baro_bias_range : Option R
  baro_bias_walk_stdev : Option R
  airspeed_stdev : Option R
  airspeed_bias_range : Option R
  airspeed_bias_walk_stdev : Option R
  sonar_stdev : Option R
  sonar_min_range : Option R
  sonar_max_range : Option R
  imu_update_rate : Option R
  inclination : Option R
  declination : Option R
  ground_altitude : Option R
  getNamespace : String

/-- The call `nh->param<double>(name, dflt)`: the configured value, or the default. -/
def param {R : Type} (configured : Option R) (dflt : R) : R :=
  configured.getD dflt

/-- The functions of the C math library used by `gazebo_setup` and `sensors_init`. -/
structure Libm (R : Type) where
  sin : R → R
  cos : R → R

/-- The random engine of the board with its two distributions.  `normal k` is the
value `normal_distribution_(random_generator_)` returns when it is the call
number `k` on the engine, `uniform k` the value of
`uniform_distribution_(random_generator_)` there; `used` counts the calls made. -/
structure RandomGenerator (R : Type) where
  normal : Nat → R
  uniform : Nat → R
  used : Nat

/-- The message `rosflight_msgs::RCRaw` as far as the board uses it: the value of
each channel.  The message type is declared outside these sources, so its
`values` array is a map from the channel index to the 16-bit value. -/
structure RCRaw where
  values : Nat → Nat

/-- The data members of `SIL_Board` (declared in `sil_board.h`). -/
structure SIL_Board (R : Type) where
  gyro_stdev : R
  gyro_bias_range : R
  gyro_bias_walk_stdev : R
  acc_stdev : R
  acc_bias_range : R
  acc_bias_walk_stdev : R
  mag_stdev : R
  mag_bias_range : R
  mag_bias_walk_stdev : R
  baro_stdev : R
  baro_bias_range : R
  baro_bias_walk_stdev : R
  airspeed_stdev : R
  airspeed_bias_range : R
  airspeed_bias_walk_stdev : R
  sonar_stdev : R
  sonar_min_range : R
  sonar_max_range : R
  imu_update_rate : R
  imu_update_period_us : Nat
  inertial_magnetic_field : Vector3d R
  ground_altitude : R
  random_generator : RandomGenerator R
  gravity : Vector3d R
  gyro_bias : Vector3d R
  acc_bias : Vector3d R
  mag_bias : Vector3d R
  baro_bias : R
  airspeed_bias : R
  prev_vel_1 : Vector3d R
  prev_vel_2 : Vector3d R
  prev_vel_3 : Vector3d R
  last_time : R
  next_imu_update_time_us : Nat
  boot_time : R
  mav_type : String
  nh : NodeHandle R
  rc_received : Bool
  latestRC : RCRaw
  pwm_outputs : Fin 14 → Nat

variable {R : Type}

/-! ## Integer conversions -/

/-- The C++ conversion `(uintN_t)x` of a floating value to an unsigned integer of
`w` bits: `x` is truncated toward zero, and the conversion is defined only when
the truncated value is representable. -/
def toUnsigned [LinearOrderedField R] [FloorRing R] (w : Nat) (x : R) : Option Nat :=
  let z : Int := if 0 ≤ x then ⌊x⌋ else ⌈x⌉
  if 0 ≤ z ∧ z < 2 ^ w then some z.toNat else none

/-- Addition of two `uint64_t` values. -/
def uint64_add (a b : Nat) : Nat :=
  (a + b) % 2 ^ 64

/-! ## Random draws -/

/-- One call `normal_distribution_(random_generator_)`: the sample and the advanced
engine. -/
def normal_distribution (g : RandomGenerator R) : R × RandomGenerator R :=
  (g.normal g.used, { g with used := g.used + 1 })

/-- One call `uniform_distribution_(random_generator_)`: the sample and the advanced
engine. -/
def uniform_distribution (g : RandomGenerator R) : R × RandomGenerator R :=
  (g.uniform g.used, { g with used := g.used + 1 })

/-- Three successive uniform draws scaled by `range`, as in the three assignments
`bias.X(range*uniform(...)); bias.Y(...); bias.Z(...)`. -/
def uniform_bias [LinearOrderedField R] (range : R) (g : RandomGenerator R) :
    Vector3d R × RandomGenerator R :=
  let x := uniform_distribution g
  let y := uniform_distribution x.2
  let z := uniform_distribution y.2
  (⟨range * x.1, range * y.1, range * z.1⟩, z.2)

/-! ## Lifecycle -/

/-- The function `SIL_Board::init_board`: records the simulation time as boot time. -/
def init_board (b : SIL_Board R) (world : Gazebo R) : SIL_Board R :=
  { b with boot_time := world.SimTime }

/-- The function `SIL_Board::gazebo_setup` (the `GAZEBO_MAJOR_VERSION >= 8` branch; the other
branch differs in accessor names only).  `seeded` is the engine freshly
seeded from the system clock.  The UDP port set-up of the base class is not
part of the model.  The result is `none` when the conversion of
`1e6/imu_update_rate_` to `uint64_t` is undefined (the quotient is infinite,
negative or too large). -/
def gazebo_setup [LinearOrderedField R] [FloorRing R] (b : SIL_Board R) (world : Gazebo R)
    (nh : NodeHandle R) (mav_type : String) (seeded : RandomGenerator R) (m : Libm R) :
    Option (SIL_Board R) :=
  let imu_update_rate := param nh.imu_update_rate 1000.0
  let period := if imu_update_rate = 0 then none else toUnsigned 64 (1e6 / imu_update_rate)
  let inclination := param nh.inclination 1.14316156541
  let declination := param nh.declination 0.198584539676
  let gyro_bias_range := param nh.gyro_bias_range 0.15
  let acc_bias_range := param nh.acc_bias_range 0.15
  let mag_bias_range := param nh.mag_bias_range 0.15
  let baro_bias_range := param nh.baro_bias_range 0.15
  let airspeed_bias_range := param nh.airspeed_bias_range 0.15
  let gyro := uniform_bias gyro_bias_range seeded
  let acc := uniform_bias acc_bias_range gyro.2
  let mag := uniform_bias mag_bias_range acc.2
  let baro := uniform_distribution mag.2
  let airspeed := uniform_distribution baro.2
  period.map fun imu_update_period_us =>
    { b with
      mav_type := mav_type
      nh := nh
      gyro_stdev := param nh.gyro_stdev 0.13
      gyro_bias_range := gyro_bias_range
      gyro_bias_walk_stdev := param nh.gyro_bias_walk_stdev 0.001
      acc_stdev := param nh.acc_stdev 1.15
      acc_bias_range := acc_bias_range
      acc_bias_walk_stdev := param nh.acc_bias_walk_stdev 0.001
      mag_stdev := param nh.mag_stdev 1.15
      mag_bias_range := mag_bias_range
      mag_bias_walk_stdev := param nh.mag_bias_walk_stdev 0.001
      baro_stdev := param nh.baro_stdev 1.15
      baro_bias_range := baro_bias_range
      baro_bias_walk_stdev := param nh.baro_bias_walk_stdev 0.001
      airspeed_stdev := param nh.airspeed_stdev 1.15
      airspeed_bias_range := airspeed_bias_range
      airspeed_bias_walk_stdev := param nh.airspeed_bias_walk_stdev 0.001
      sonar_stdev := param nh.sonar_stdev 1.15
      sonar_min_range := param nh.sonar_min_range 0.25
      sonar_max_range := param nh.sonar_max_range 8.0
      imu_update_rate := imu_update_rate
      imu_update_period_us := imu_update_period_us
      inertial_magnetic_field :=
        ⟨m.cos (-inclination) * m.cos (-declination),
         m.cos (-inclination) * m.sin (-declination),
         m.sin (-inclination)⟩
      ground_altitude := param nh.ground_altitude 1387.0
      gravity := world.Gravity
      gyro_bias := gyro.1
      acc_bias := acc.1
      mag_bias := mag.1
      baro_bias := baro_bias_range * baro.1
      airspeed_bias := airspeed_bias_range * airspeed.1
      random_generator := airspeed.2
      prev_vel_1 := world.RelativeLinearVel
      prev_vel_2 := world.RelativeLinearVel
      prev_vel_3 := world.RelativeLinearVel
      last_time := world.SimTime
      next_imu_update_time_us := 0 }

/-! ## Clock -/

/-- The function `SIL_Board::clock_millis`: `(uint32_t)((SimTime - boot_time_)*1e3)`. -/
def clock_millis [LinearOrderedField R] [FloorRing R] (b : SIL_Board R) (world : Gazebo R) :
    Option Nat :=
  toUnsigned 32 ((world.SimTime - b.boot_time) * 1e3)

/-- The function `SIL_Board::clock_micros`: `(uint64_t)((SimTime - boot_time_)*1e6)`. -/
def clock_micros [LinearOrderedField R] [FloorRing R] (b : SIL_Board R) (world : Gazebo R) :
    Option Nat :=
  toUnsigned 64 ((world.SimTime - b.boot_time) * 1e6)

/-! ## IMU sample scheduler -/

/-- The function `SIL_Board::new_imu_data`.  `now_us` is the value that the call
`clock_micros()` in its first line returned. -/
def new_imu_data (b : SIL_Board R) (now_us : Nat) : Bool × SIL_Board R :=
  if now_us ≥ b.next_imu_update_time_us then
    (true, { b with next_imu_update_time_us := uint64_add now_us b.imu_update_period_us })
  else
    (false, b)

/-- Successive calls of `new_imu_data`, one at each clock value of `times`: the
results in order and the board after the last call. -/
def new_imu_data_calls (b : SIL_Board R) : List Nat → List Bool × SIL_Board R
  | [] => ([], b)
  | now_us :: rest =>
    let r := new_imu_data b now_us
    let rs := new_imu_data_calls r.2 rest
    (r.1 :: rs.1, rs.2)

/-! ## Sensors -/

/-- The function `SIL_Board::sensors_init` (the `GAZEBO_MAJOR_VERSION >= 8` branch): draws
the gyro and accelerometer biases again and sets the magnetic field from the
two constants written in the function. -/
def sensors_init [LinearOrderedField R] (b : SIL_Board R) (m : Libm R) : SIL_Board R :=
  let gyro := uniform_bias b.gyro_bias_range b.random_generator
  let acc := uniform_bias b.acc_bias_range gyro.2
  let inclination : R := 1.14316156541
  let declination : R := 0.198584539676
  { b with
    gyro_bias := gyro.1
    acc_bias := acc.1
    random_generator := acc.2
    inertial_magnetic_field :=
      ⟨m.cos (-inclination) * m.cos (-declination),
       m.cos (-inclination) * m.sin (-declination),
       m.sin (-inclination)⟩ }

/-- The function `SIL_Board::sonar_read`: the reading and the board it leaves (the
random engine advances only when a sample is drawn). -/
def sonar_read [LinearOrderedField R] (b : SIL_Board R) (world : Gazebo R) : R × SIL_Board R :=
  let alt := world.WorldPose.Pos.Z
  if alt < b.sonar_min_range then
    (b.sonar_min_range, b)
  else if alt > b.sonar_max_range then
    (b.sonar_max_range, b)
  else
    let g := normal_distribution b.random_generator
    (alt + b.sonar_stdev * g.1, { b with random_generator := g.2 })

/-! ## PWM -/

/-- The function `SIL_Board::pwm_init`.  Its three arguments are not used by the body.
The subscription to the topic `RC` is what later delivers frames to
`RCCallback` and what `pwm_read` asks for its number of publishers. -/
def pwm_init (b : SIL_Board R) (_cppm : Bool) (_refresh_rate : Nat) (_idle_pwm : Nat) :
    SIL_Board R :=
  let v0 := Function.update b.latestRC.values 0 1500
  let v1 := Function.update v0 1 1500
  let v3 := Function.update v1 3 1500
  let v2 := Function.update v3 2 1000
  let v4 := Function.update v2 4 1000
  let v5 := Function.update v4 5 1000
  { b with
    rc_received := false
    latestRC := ⟨v5⟩
    pwm_outputs := fun _ => 1000 }

/-- The function `SIL_Board::pwm_read`.  `numPublishers` is the value of
`rc_sub_.getNumPublishers()` at the call.  The board is returned as it was. -/
def pwm_read (b : SIL_Board R) (numPublishers : Nat) (channel : Nat) : Nat × SIL_Board R :=
  if numPublishers > 0 then
    (b.latestRC.values channel, b)
  else if channel = 2 then
    (1000, b)
  else
    (1500, b)

/-- The function `SIL_Board::pwm_write`: a store into `pwm_outputs_[channel]`, undefined
for a channel outside the 14 elements of the array. -/
def pwm_write (b : SIL_Board R) (channel : Nat) (value : Nat) : Option (SIL_Board R) :=
  if h : channel < 14 then
    some { b with pwm_outputs := Function.update b.pwm_outputs ⟨channel, h⟩ value }
  else
    none

/-- The function `SIL_Board::pwm_lost`. -/
def pwm_lost (b : SIL_Board R) : Bool :=
  !b.rc_received

/-- The function `SIL_Board::motors_spinning`. -/
def motors_spinning (b : SIL_Board R) : Bool :=
  if b.pwm_outputs 2 > 1100 then true else false

/-- The function `SIL_Board::RCCallback`: stores the frame delivered on the topic `RC`. -/
def RCCallback (b : SIL_Board R) (msg : RCRaw) : SIL_Board R :=
  { b with rc_received := true, latestRC := msg }

/-- A sequence of `pwm_write(channel, value)` calls, in order. -/
def pwm_writes (b : SIL_Board R) : List (Nat × Nat) → Option (SIL_Board R)
  | [] => some b
  | (channel, value) :: rest => (pwm_write b channel value).bind fun b1 => pwm_writes b1 rest

/-- One call into the PWM interface of the board. -/
inductive PwmCall where
  | init (cppm : Bool) (refresh_rate : Nat) (idle_pwm : Nat)
  | read (numPublishers : Nat) (channel : Nat)
  | write (channel : Nat) (value : Nat)
  | rc (msg : RCRaw)

/-- The board after one call into the PWM interface. -/
def pwm_call (b : SIL_Board R) : PwmCall → Option (SIL_Board R)
  | .init cppm refresh_rate idle_pwm => some (pwm_init b cppm refresh_rate idle_pwm)
  | .read numPublishers channel => some (pwm_read b numPublishers channel).2
  | .write channel value => pwm_write b channel value
  | .rc msg => some (RCCallback b msg)

/-- The board after a sequence of calls into the PWM interface, in order. -/
def pwm_calls (b : SIL_Board R) : List PwmCall → Option (SIL_Board R)
  | [] => some b
  | c :: rest => (pwm_call b c).bind fun b1 => pwm_calls b1 rest

/-- The call is a `pwm_init`. -/
def PwmCall.isInit : PwmCall → Bool
  | .init _ _ _ => true
  | _ => false

/-- The call is an `RCCallback`. -/
def PwmCall.isFrame : PwmCall → Bool
  | .rc _ => true
  | _ => false

/-- The call is a `pwm_write` to a channel outside `pwm_outputs_`. -/
def PwmCall.outOfRange : PwmCall → Bool
  | .write channel _ => decide (14 ≤ channel)
  | _ => false

/-! ## Inertial, magnetic and pressure sensors -/

/-- The vector functions of the Gazebo math library that the sensor reads call:
`Quaterniond::RotateVectorReverse` (the vector taken from the world frame into
the frame of the rotation) and `Vector3d::Length`. -/
structure GazeboMath (R : Type) where
  RotateVectorReverse : Quaterniond R → Vector3d R → Vector3d R
  Length : Vector3d R → R

/-- Sum of two vectors (`operator+` of `Vector3d`). -/
def Vector3d.add [LinearOrderedField R] (a b : Vector3d R) : Vector3d R :=
  ⟨a.X + b.X, a.Y + b.Y, a.Z + b.Z⟩

/-- Difference of two vectors (`operator-` of `Vector3d`). -/
def Vector3d.sub [LinearOrderedField R] (a b : Vector3d R) : Vector3d R :=
  ⟨a.X - b.X, a.Y - b.Y, a.Z - b.Z⟩

/-- Negation of a vector (unary `operator-` of `Vector3d`). -/
def Vector3d.neg [LinearOrderedField R] (a : Vector3d R) : Vector3d R :=
  ⟨-a.X, -a.Y, -a.Z⟩

/-- The three assignments `n.X(stdev*normal(...)); n.Y(...); n.Z(...)`: a vector of
three successive scaled normal draws, and the advanced engine. -/
def normal_vector [LinearOrderedField R] (stdev : R) (g : RandomGenerator R) :
    Vector3d R × RandomGenerator R :=
  let x := normal_distribution g
  let y := normal_distribution x.2
  let z := normal_distribution y.2
  (⟨stdev * x.1, stdev * y.1, stdev * z.1⟩, z.2)

/-- The three assignments `v.X(v.X() + stdev*normal(...)); v.Y(...); v.Z(...)`: three
successive scaled normal draws added to `v`, and the advanced engine. -/
def add_normal [LinearOrderedField R] (v : Vector3d R) (stdev : R) (g : RandomGenerator R) :
    Vector3d R × RandomGenerator R :=
  let x := normal_distribution g
  let y := normal_distribution x.2
  let z := normal_distribution y.2
  (⟨v.X + stdev * x.1, v.Y + stdev * y.1, v.Z + stdev * z.1⟩, z.2)

/-- The conversion to NED for output: `out[0] = v.X(); out[1] = -v.Y(); out[2] = -v.Z()`.
The three elements of the output array are the components of the result. -/
def to_NED [LinearOrderedField R] (v : Vector3d R) : Vector3d R :=
  ⟨v.X, -v.Y, -v.Z⟩

/-- Product of a scalar and a vector. -/
def Vector3d.scale [LinearOrderedField R] (s : R) (a : Vector3d R) : Vector3d R :=
  ⟨s * a.X, s * a.Y, s * a.Z⟩

/-- The three normal samples that the engine `g` returns at the calls number `k`,
`k + 1` and `k + 2`, as a vector. -/
def RandomGenerator.normal3 (g : RandomGenerator R) (k : Nat) : Vector3d R :=
  ⟨g.normal k, g.normal (k + 1), g.normal (k + 2)⟩

/-- The first statement of `imu_read`: the acceleration `y_acc` in the body frame before
noise and bias, with gravity alone when the link is slower than 0.05. -/
def body_acceleration [LinearOrderedField R] (b : SIL_Board R) (world : Gazebo R)
    (gm : GazeboMath R) : Vector3d R :=
  let q_I_NWU := world.WorldPose.Rot
  let current_vel := world.RelativeLinearVel
  if gm.Length current_vel < 0.05 then
    gm.RotateVectorReverse q_I_NWU b.gravity.neg
  else
    gm.RotateVectorReverse q_I_NWU (world.WorldLinearAccel.sub b.gravity)

/-- What `imu_read` stores through its four arguments, and the value it returns. -/
structure ImuReading (R : Type) where
  accel : Vector3d R
  temperature : R
  gyro : Vector3d R
  time_us : Nat
  returned : Bool

/-- The function `SIL_Board::imu_read` (the `GAZEBO_MAJOR_VERSION >= 8` branch; the other
branch differs in accessor names only).  `now_us` is the value that the call
`clock_micros()` returned. -/
def imu_read [LinearOrderedField R] (b : SIL_Board R) (world : Gazebo R) (gm : GazeboMath R)
    (now_us : Nat) : ImuReading R × SIL_Board R :=
  let y_acc := body_acceleration b world gm
  let acc_noise :=
    if motors_spinning b then add_normal y_acc b.acc_stdev b.random_generator
    else (y_acc, b.random_generator)
  let acc_walk := add_normal b.acc_bias b.acc_bias_walk_stdev acc_noise.2
  let y_acc := acc_noise.1.add acc_walk.1
  let y_gyro := world.RelativeAngularVel
  let gyro_noise :=
    if motors_spinning b then add_normal y_gyro b.gyro_stdev acc_walk.2
    else (y_gyro, acc_walk.2)
  let gyro_walk := add_normal b.gyro_bias b.gyro_bias_walk_stdev gyro_noise.2
  let y_gyro := gyro_noise.1.add gyro_walk.1
  ({ accel := to_NED y_acc, temperature := 27.0, gyro := to_NED y_gyro,
     time_us := now_us, returned := true },
   { b with acc_bias := acc_walk.1, gyro_bias := gyro_walk.1,
            random_generator := gyro_walk.2 })

/-- The function `SIL_Board::mag_read`: the three values stored in `mag`, and the board it
leaves. -/
def mag_read [LinearOrderedField R] (b : SIL_Board R) (world : Gazebo R) (gm : GazeboMath R) :
    Vector3d R × SIL_Board R :=
  let I_to_B := world.WorldPose
  let noise := normal_vector b.mag_stdev b.random_generator
  let mag_walk := add_normal b.mag_bias b.mag_bias_walk_stdev noise.2
  let y_mag :=
    ((gm.RotateVectorReverse I_to_B.Rot b.inertial_magnetic_field).add mag_walk.1).add noise.1
  (to_NED y_mag, { b with mag_bias := mag_walk.1, random_generator := mag_walk.2 })

/-- The true pressure reading of `baro_read`:
`101325.0f*(float)pow((1-2.25694e-5 * alt), 5.2553)`, with `pow` of the C math
library as an argument. -/
def baro_pressure [LinearOrderedField R] (pow : R → R → R) (alt : R) : R :=
  101325.0 * pow (1 - 2.25694e-5 * alt) 5.2553

/-- The function `SIL_Board::baro_read`: the pressure and the temperature it stores, and the
board it leaves. -/
def baro_read [LinearOrderedField R] (b : SIL_Board R) (world : Gazebo R) (pow : R → R → R) :
    (R × R) × SIL_Board R :=
  let alt := world.WorldPose.Pos.Z + b.ground_altitude
  let y_baro := baro_pressure pow alt
  let noise := normal_distribution b.random_generator
  let y_baro := y_baro + b.baro_stdev * noise.1
  let walk := normal_distribution noise.2
  let baro_bias := b.baro_bias + b.baro_bias_walk_stdev * walk.1
  let y_baro := y_baro + baro_bias
  ((y_baro, 27.0), { b with baro_bias := baro_bias, random_generator := walk.2 })

/-- The function `SIL_Board::diff_pressure_check`. -/
def diff_pressure_check (b : SIL_Board R) : Bool :=
  if b.mav_type = "fixedwing" then true else false

/-- The function `SIL_Board::diff_pressure_read`: the differential pressure and the
temperature it stores, and the board it leaves. -/
def diff_pressure_read [LinearOrderedField R] (b : SIL_Board R) (world : Gazebo R)
    (gm : GazeboMath R) : (R × R) × SIL_Board R :=
  let rho : R := 1.225
  let vel := world.RelativeLinearVel
  let Va := gm.Length vel
  let y_as := rho * Va * Va / 2.0
  let noise := normal_distribution b.random_generator
  let y_as := y_as + b.airspeed_stdev * noise.1
  let walk := normal_distribution noise.2
  let airspeed_bias := b.airspeed_bias + b.airspeed_bias_walk_stdev * walk.1
  let y_as := y_as + airspeed_bias
  ((y_as, 27.0), { b with airspeed_bias := airspeed_bias, random_generator := walk.2 })

/-- One call of a sensor read of the board, with the Gazebo state at the call. -/
inductive SensorCall (R : Type) where
  | imu (world : Gazebo R) (now_us : Nat)
  | mag (world : Gazebo R)
  | baro (world : Gazebo R)
  | diff_pressure (world : Gazebo R)
  | sonar (world : Gazebo R)

/-- The board after one sensor read. -/
def sensor_call [LinearOrderedField R] (gm : GazeboMath R) (pow : R → R → R)
    (b : SIL_Board R) : SensorCall R → SIL_Board R
  | .imu world now_us => (imu_read b world gm now_us).2
  | .mag world => (mag_read b world gm).2
  | .baro world => (baro_read b world pow).2
  | .diff_pressure world => (diff_pressure_read b world gm).2
  | .sonar world => (sonar_read b world).2

/-- The board after a sequence of sensor reads, in order. -/
def sensor_calls [LinearOrderedField R] (gm : GazeboMath R) (pow : R → R → R)
    (b : SIL_Board R) : List (SensorCall R) → SIL_Board R
  | [] => b
  | c :: rest => sensor_calls gm pow (sensor_call gm pow b c) rest

/-! ## Non-volatile memory -/

/-- The part of the file system the board touches: which directories exist, and the
bytes of each file that exists. -/
structure FileSystem where
  directory : String → Bool
  file : String → Option (List Nat)

/-- The directory `"rosflight_memory" + nh_->getNamespace()` of both memory functions. -/
def memory_directory (b : SIL_Board R) : String :=
  "rosflight_memory" ++ b.nh.getNamespace

/-- The path `directory + "/mem.bin"` that both memory functions open. -/
def memory_path (b : SIL_Board R) : String :=
  memory_directory b ++ "/mem.bin"

/-- The effect of `system("mkdir -p " + directory)` that returned `status`: the
directory exists afterwards when the command exited with status 0; otherwise
the file system is as before. -/
def system_mkdir_p (fs : FileSystem) (directory : String) (status : Int) : FileSystem :=
  if status = 0 then
    { fs with directory := fun d => if d = directory then true else fs.directory d }
  else
    fs

/-- The function `SIL_Board::memory_read`: the result and the destination buffer
afterwards.  The stream is open exactly when the file exists; `read` stores the
bytes it could extract at the front of `dest`. -/
def memory_read (b : SIL_Board R) (fs : FileSystem) (dest : List Nat) (len : Nat) :
    Bool × List Nat :=
  match fs.file (memory_path b) with
  | none => (false, dest)
  | some bytes =>
    let got := bytes.take len
    (true, got ++ dest.drop got.length)

/-- The function `SIL_Board::memory_write`: the result and the file system afterwards.
`dir_err` is the value `system` returned.  The output stream opens (and
truncates the file) exactly when the directory exists; a `write` on a stream
that did not open stores nothing, and the function does not test the stream. -/
def memory_write (b : SIL_Board R) (fs : FileSystem) (src : List Nat) (len : Nat)
    (dir_err : Int) : Bool × FileSystem :=
  let fs1 := system_mkdir_p fs (memory_directory b) dir_err
  if dir_err = -1 then
    (false, fs1)
  else if fs1.directory (memory_directory b) then
    (true, { fs1 with
      file := fun p => if p = memory_path b then some (src.take len) else fs1.file p })
  else
    (true, fs1)

/-! ## The plugin `ROSflightSIL` (`rosflight_sil.cpp`) -/

/-- The matrix `NWU_to_NED` that `OnUpdate` fills with `1, 0, 0, 0, -1, 0, 0, 0, -1`. -/
def NWU_to_NED [LinearOrderedField R] : Matrix (Fin 3) (Fin 3) R :=
  !![1, 0, 0; 0, -1, 0; 0, 0, -1]

/-- The function `ROSflightSIL::vec3_to_eigen_from_gazebo`. -/
def vec3_to_eigen_from_gazebo (vec : Vector3d R) : Fin 3 → R :=
  ![vec.X, vec.Y, vec.Z]

/-- The library function `Eigen::Quaterniond::toRotationMatrix`: the rotation matrix of
a quaternion. -/
def toRotationMatrix [LinearOrderedField R] (q : Quaterniond R) : Matrix (Fin 3) (Fin 3) R :=
  let tx := 2 * q.X
  let ty := 2 * q.Y
  let tz := 2 * q.Z
  let twx := tx * q.W
  let twy := ty * q.W
  let twz := tz * q.W
  let txx := tx * q.X
  let txy := ty * q.X
  let txz := tz * q.X
  let tyy := ty * q.Y
  let tyz := tz * q.Y
  let tzz := tz * q.Z
  !![1 - (tyy + tzz), txy - twz, txz + twy;
     txy + twz, 1 - (txx + tzz), tyz - twx;
     txz - twy, tyz + twx, 1 - (txx + tyy)]

/-- The function `ROSflightSIL::rotation_to_eigen_from_gazebo`. -/
def rotation_to_eigen_from_gazebo [LinearOrderedField R] (quat : Quaterniond R) :
    Matrix (Fin 3) (Fin 3) R :=
  toRotationMatrix ⟨quat.W, quat.X, quat.Y, quat.Z⟩

/-- The record `MAVForcesAndMoments::Current_State` that is handed to the dynamics model. -/
structure Current_State (R : Type) where
  pos : Fin 3 → R
  rot : Matrix (Fin 3) (Fin 3) R
  vel : Fin 3 → R
  omega : Fin 3 → R
  t : R

/-- The state that `ROSflightSIL::OnUpdate` builds and hands to
`updateForcesAndTorques`, from the pose `link_->GetWorldCoGPose()`, the
velocities `link_->GetRelativeLinearVel()` and `link_->GetRelativeAngularVel()`
and the simulation time.  The two firmware steps before it and the forces
applied after it are not part of the model. -/
def OnUpdate [LinearOrderedField R] (pose : Pose3d R) (vel omega : Vector3d R) (simTime : R) :
    Current_State R :=
  { pos := NWU_to_NED.mulVec (vec3_to_eigen_from_gazebo pose.Pos)
    rot := NWU_to_NED * rotation_to_eigen_from_gazebo pose.Rot
    vel := NWU_to_NED.mulVec (vec3_to_eigen_from_gazebo vel)
    omega := NWU_to_NED.mulVec (vec3_to_eigen_from_gazebo omega)
    t := simTime }

/-- The pose and twist of a `nav_msgs::Odometry` message (header left out). -/
structure Odometry (R : Type) where
  orientation : Quaterniond R
  position : Vector3d R
  linear : Vector3d R
  angular : Vector3d R

/-- The function `ROSflightSIL::publishTruth`: the message it publishes on `truth/NWU` and the
message it publishes on `truth/NED`. -/
def publishTruth [LinearOrderedField R] (pose : Pose3d R) (vel omega : Vector3d R) :
    Odometry R × Odometry R :=
  let truth : Odometry R :=
    { orientation := ⟨pose.Rot.W, pose.Rot.X, pose.Rot.Y, pose.Rot.Z⟩
      position := ⟨pose.Pos.X, pose.Pos.Y, pose.Pos.Z⟩
      linear := ⟨vel.X, vel.Y, vel.Z⟩
      angular := ⟨omega.X, omega.Y, omega.Z⟩ }
  let truth_NED : Odometry R :=
    { orientation :=
        ⟨truth.orientation.W, truth.orientation.X,
         truth.orientation.Y * (-1.0), truth.orientation.Z * (-1.0)⟩
      position := ⟨truth.position.X, truth.position.Y * (-1.0), truth.position.Z * (-1.0)⟩
      linear := ⟨truth.linear.X, truth.linear.Y * (-1.0), truth.linear.Z * (-1.0)⟩
      angular := ⟨truth.angular.X, truth.angular.Y * (-1.0), truth.angular.Z * (-1.0)⟩ }
  (truth, truth_NED)

/-! ## Concrete boards for evaluation -/

/-- A node handle with no parameter set, in the given namespace. -/
def unconfigured (R : Type) (ns : String) : NodeHandle R :=
  { gyro_stdev := none, gyro_bias_range := none, gyro_bias_walk_stdev := none
    acc_stdev := none, acc_bias_range := none, acc_bias_walk_stdev := none
    mag_stdev := none, mag_bias_range := none, mag_bias_walk_stdev := none
    baro_stdev := none, baro_bias_range := none, baro_bias_walk_stdev := none
    airspeed_stdev := none, airspeed_bias_range := none, airspeed_bias_walk_stdev := none
    sonar_stdev := none, sonar_min_range := none, sonar_max_range := none
    imu_update_rate := none, inclination := none, declination := none
    ground_altitude := none, getNamespace := ns }

/-- A board whose numeric members are all zero (in C++ the members are
indeterminate until the set-up functions run). -/
def blank (R : Type) [LinearOrderedField R] : SIL_Board R :=
  { gyro_stdev := 0, gyro_bias_range := 0, gyro_bias_walk_stdev := 0
    acc_stdev := 0, acc_bias_range := 0, acc_bias_walk_stdev := 0
    mag_stdev := 0, mag_bias_range := 0, mag_bias_walk_stdev := 0
    baro_stdev := 0, baro_bias_range := 0, baro_bias_walk_stdev := 0
    airspeed_stdev := 0, airspeed_bias_range := 0, airspeed_bias_walk_stdev := 0
    sonar_stdev := 0, sonar_min_range := 0, sonar_max_range := 0
    imu_update_rate := 0, imu_update_period_us := 0
    inertial_magnetic_field := ⟨0, 0, 0⟩, ground_altitude := 0
    random_generator := ⟨fun _ => 0, fun _ => 0, 0⟩
    gravity := ⟨0, 0, 0⟩
    gyro_bias := ⟨0, 0, 0⟩, acc_bias := ⟨0, 0, 0⟩, mag_bias := ⟨0, 0, 0⟩
    baro_bias := 0, airspeed_bias := 0
    prev_vel_1 := ⟨0, 0, 0⟩, prev_vel_2 := ⟨0, 0, 0⟩, prev_vel_3 := ⟨0, 0, 0⟩
    last_time := 0, next_imu_update_time_us := 0, boot_time := 0
    mav_type := "", nh := unconfigured R ""
    rc_received := false, latestRC := ⟨fun _ => 0⟩, pwm_outputs := fun _ => 0 }

/-- A Gazebo instant at simulation time `t` with the link at height `z`, at rest. -/
def still [LinearOrderedField R] (t z : R) : Gazebo R :=
  { SimTime := t, Gravity := ⟨0, 0, -9.8⟩
    WorldPose := ⟨⟨0, 0, z⟩, ⟨1, 0, 0, 0⟩⟩
    RelativeLinearVel := ⟨0, 0, 0⟩, RelativeAngularVel := ⟨0, 0, 0⟩
    WorldLinearAccel := ⟨0, 0, 0⟩ }

/-- Rational stand-ins for `sin` and `cos` (the first terms of their series), to
evaluate the set-up functions on `ℚ`. -/
def seriesLibm : Libm ℚ :=
  { sin := fun x => x - x ^ 3 / 6, cos := fun x => 1 - x ^ 2 / 2 }

/-- A node handle on which only `inclination` and `declination` are set. -/
def withMagneticAngles (R : Type) (inclination declination : R) : NodeHandle R :=
  { unconfigured R "" with inclination := some inclination, declination := some declination }

/-- A node handle on which only `imu_update_rate` is set. -/
def withImuRate (rate : ℚ) : NodeHandle ℚ :=
  { unconfigured ℚ "" with imu_update_rate := some rate }

/-- An engine whose draws are all zero. -/
def zeroEngine : RandomGenerator ℚ :=
  ⟨fun _ => 0, fun _ => 0, 0⟩

/-- The board that `gazebo_setup` leaves for `imu_update_rate = 1000`, starting from
the blank board at simulation time 0. -/
def board1000 : SIL_Board ℚ :=
  (gazebo_setup (blank ℚ) (still 0 0) (withImuRate 1000) "multirotor" zeroEngine
    seriesLibm).getD (blank ℚ)

/-- A board with the default sonar parameters whose engine draws the sample 2 at
every call. -/
def sonarBoard : SIL_Board ℚ :=
  { blank ℚ with
    sonar_stdev := 1.15, sonar_min_range := 0.25, sonar_max_range := 8.0
    random_generator := ⟨fun _ => 2, fun _ => 0, 0⟩ }

/-- Stand-ins for the Gazebo vector functions on `ℚ`: the rotation of a vector by the
conjugate of a unit quaternion, and a length that is exact for vectors along
one axis (the sum of the absolute values of the components). -/
def axisMath : GazeboMath ℚ :=
  { RotateVectorReverse := fun q v =>
      ⟨(1 - 2 * (q.Y * q.Y + q.Z * q.Z)) * v.X + 2 * (q.X * q.Y + q.W * q.Z) * v.Y
          + 2 * (q.X * q.Z - q.W * q.Y) * v.Z,
       2 * (q.X * q.Y - q.W * q.Z) * v.X + (1 - 2 * (q.X * q.X + q.Z * q.Z)) * v.Y
          + 2 * (q.Y * q.Z + q.W * q.X) * v.Z,
       2 * (q.X * q.Z + q.W * q.Y) * v.X + 2 * (q.Y * q.Z - q.W * q.X) * v.Y
          + (1 - 2 * (q.X * q.X + q.Y * q.Y)) * v.Z⟩
    Length := fun v => |v.X| + |v.Y| + |v.Z| }

/-- A board with walk deviations 0, measurement deviations 1, biases 0.5, gravity
`(0, 0, -9.8)` and an engine whose normal draw number `k` is `k + 1`. -/
def steadyBoard : SIL_Board ℚ :=
  { blank ℚ with
    gyro_stdev := 1, acc_stdev := 1, mag_stdev := 1, baro_stdev := 1, airspeed_stdev := 1
    gravity := ⟨0, 0, -9.8⟩
    gyro_bias := ⟨0.5, 0.5, 0.5⟩, acc_bias := ⟨0.5, 0.5, 0.5⟩, mag_bias := ⟨0.5, 0.5, 0.5⟩
    baro_bias := 0.5, airspeed_bias := 0.5
    random_generator := ⟨fun k => (k : ℚ) + 1, fun _ => 0, 0⟩ }

/-- The board `steadyBoard` with every PWM output at 1500, so that the motors spin. -/
def spinningBoard : SIL_Board ℚ :=
  { steadyBoard with pwm_outputs := fun _ => 1500 }

/-- A file system with no directory and no file. -/
def emptyFileSystem : FileSystem :=
  { directory := fun _ => false, file := fun _ => none }

/-- The blank board with a node handle in the namespace `/uav`. -/
def uavBoard : SIL_Board ℚ :=
  { blank ℚ with nh := unconfigured ℚ "/uav" }

/-! ## Integer conversions: lemmas -/

theorem toUnsigned_of_nonneg [LinearOrderedField R] [FloorRing R] (w : Nat) (x : R)
    (h0 : 0 ≤ x) (h : x < 2 ^ w) :
    toUnsigned w x = some ⌊x⌋₊ := by
  have hz : (0 : Int) ≤ ⌊x⌋ := Int.floor_nonneg.mpr h0
  have hlt : ⌊x⌋ < (2 : Int) ^ w := by
    rw [Int.floor_lt]
    push_cast
    exact h
  simp [toUnsigned, h0, hz, hlt, Int.floor_toNat]

theorem toUnsigned_of_large [LinearOrderedField R] [FloorRing R] (w : Nat) (x : R)
    (h : (2 : R) ^ w ≤ x) :
    toUnsigned w x = none := by
  have h0 : 0 ≤ x := le_trans (by positivity) h
  have hge : ¬ ⌊x⌋ < (2 : Int) ^ w := by
    rw [Int.floor_lt]
    push_cast
    exact not_lt.mpr h
  simp [toUnsigned, h0, hge]

theorem toUnsigned_natCast [LinearOrderedField R] [FloorRing R] (w n : Nat)
    (h : n < 2 ^ w) : toUnsigned w (n : R) = some n := by
  have h1 : (n : R) < 2 ^ w := by exact_mod_cast h
  rw [toUnsigned_of_nonneg w (n : R) (Nat.cast_nonneg n) h1, Nat.floor_natCast]

theorem toUnsigned_eq_some [LinearOrderedField R] [FloorRing R] (w : Nat) (x : R) (p : Nat)
    (h : toUnsigned w x = some p) (h0 : 0 ≤ x) : p = ⌊x⌋₊ := by
  rcases lt_or_le x (2 ^ w) with hlt | hge
  · rw [toUnsigned_of_nonneg w x h0 hlt] at h
    exact (Option.some.inj h).symm
  · rw [toUnsigned_of_large w x hge] at h
    exact absurd h (by simp)

theorem uint64_add_of_lt (a b : Nat) (h : a + b < 2 ^ 64) : uint64_add a b = a + b :=
  Nat.mod_eq_of_lt h

/-! ## IMU sample scheduler: theorems -/

theorem gazebo_setup_schedule [LinearOrderedField R] [FloorRing R]
    (b0 : SIL_Board R) (world : Gazebo R) (nh : NodeHandle R) (mav_type : String)
    (seeded : RandomGenerator R) (m : Libm R) (b1 : SIL_Board R)
    (h : gazebo_setup b0 world nh mav_type seeded m = some b1) :
    param nh.imu_update_rate 1000.0 ≠ 0 ∧
    toUnsigned 64 (1e6 / param nh.imu_update_rate 1000.0) = some b1.imu_update_period_us ∧
    b1.imu_update_rate = param nh.imu_update_rate 1000.0 ∧
    b1.next_imu_update_time_us = 0 := by
  unfold gazebo_setup at h
  simp only [Option.map_eq_some'] at h
  obtain ⟨p, hp, hb⟩ := h
  subst hb
  by_cases h0 : param nh.imu_update_rate 1000.0 = 0
  · rw [if_pos h0] at hp
    exact absurd hp (by simp)
  · rw [if_neg h0] at hp
    exact ⟨h0, hp, rfl, rfl⟩

theorem gazebo_setup_defined [LinearOrderedField R] [FloorRing R]
    (b0 : SIL_Board R) (world : Gazebo R) (nh : NodeHandle R) (mav_type : String)
    (seeded : RandomGenerator R) (m : Libm R) (p : Nat)
    (h0 : param nh.imu_update_rate 1000.0 ≠ 0)
    (hp : toUnsigned 64 (1e6 / param nh.imu_update_rate 1000.0) = some p) :
    ∃ b1, gazebo_setup b0 world nh mav_type seeded m = some b1 ∧
      b1.imu_update_period_us = p ∧ b1.next_imu_update_time_us = 0 := by
  unfold gazebo_setup
  simp only [if_neg h0, hp, Option.map_some']
  exact ⟨_, rfl, rfl, rfl⟩

theorem new_imu_data_fires (b : SIL_Board R) (now_us : Nat)
    (h : now_us ≥ b.next_imu_update_time_us) :
    new_imu_data b now_us =
      (true, { b with
        next_imu_update_time_us := uint64_add now_us b.imu_update_period_us }) := by
  simp [new_imu_data, h]

theorem new_imu_data_waits (b : SIL_Board R) (now_us : Nat)
    (h : now_us < b.next_imu_update_time_us) : new_imu_data b now_us = (false, b) := by
  simp [new_imu_data, not_le.mpr h]

theorem new_imu_data_calls_quiet (b : SIL_Board R) (ts : List Nat)
    (h : ∀ u ∈ ts, u < b.next_imu_update_time_us) :
    new_imu_data_calls b ts = (ts.map fun _ => false, b) := by
  induction ts with
  | nil => rfl
  | cons u rest ih =>
    have hrest : ∀ v ∈ rest, v < b.next_imu_update_time_us :=
      fun v hv => h v (List.mem_cons_of_mem u hv)
    simp [new_imu_data_calls, new_imu_data_waits b u (h u (List.mem_cons_self u rest)), ih hrest]

theorem new_imu_data_calls_spaced (p n : Nat) (b : SIL_Board R) (t : Nat)
    (hp : b.imu_update_period_us = p) (ht : t ≥ b.next_imu_update_time_us) :
    (new_imu_data_calls b (List.iterate (fun u => uint64_add u p) t n)).1
      = List.replicate n true := by
  induction n generalizing b t with
  | zero => rfl
  | succ k ih =>
    have hstep := ih (new_imu_data b t).2 (uint64_add t p)
      (by rw [new_imu_data_fires b t ht]; exact hp)
      (by rw [new_imu_data_fires b t ht, hp])
    simp only [List.iterate, new_imu_data_calls, List.replicate_succ]
    rw [hstep, new_imu_data_fires b t ht]

/-- C1: `new_imu_data` is exactly the poll transition.  For every clock value
`now_us` and every stored `next_imu_update_time_us`: when
`now_us >= next_imu_update_time_us` the call returns true and stores
`now_us + imu_update_period_us` (the 64-bit unsigned sum of the source, which is
the plain sum whenever that fits in 64 bits) in `next_imu_update_time_us`,
whatever the boundary that was missed, and changes nothing else; otherwise it
returns false and leaves the board as it was. -/
theorem new_imu_data_transition (b : SIL_Board R) (now_us : Nat) :
    (now_us ≥ b.next_imu_update_time_us →
      new_imu_data b now_us =
        (true, { b with
          next_imu_update_time_us := uint64_add now_us b.imu_update_period_us })) ∧
    (now_us ≥ b.next_imu_update_time_us → now_us + b.imu_update_period_us < 2 ^ 64 →
      (new_imu_data b now_us).2.next_imu_update_time_us = now_us + b.imu_update_period_us) ∧
    (now_us < b.next_imu_update_time_us → new_imu_data b now_us = (false, b)) := by
  refine ⟨new_imu_data_fires b now_us, fun h hfit => ?_, new_imu_data_waits b now_us⟩
  rw [new_imu_data_fires b now_us h]
  exact uint64_add_of_lt _ _ hfit

theorem new_imu_data_calls_1000 (b : SIL_Board R) (hp : b.imu_update_period_us = 1000)
    (hn : b.next_imu_update_time_us = 0) :
    new_imu_data_calls b [0, 500, 999, 1000]
      = ([true, false, false, true], { b with next_imu_update_time_us := 2000 }) := by
  have h0 : new_imu_data b 0 = (true, { b with next_imu_update_time_us := 1000 }) := by
    rw [new_imu_data_fires b 0 (by rw [hn]), hp]
    rfl
  have h3 : new_imu_data { b with next_imu_update_time_us := 1000 } 1000
      = (true, { b with next_imu_update_time_us := 2000 }) := by
    rw [new_imu_data_fires _ 1000 (le_refl _)]
    simp only [hp]
    rfl
  simp only [new_imu_data_calls, h0]
  rw [new_imu_data_waits _ 500 (by simp), new_imu_data_waits _ 999 (by simp), h3]

theorem gazebo_setup_1000 :
    gazebo_setup (blank ℚ) (still 0 0) (withImuRate 1000) "multirotor" zeroEngine seriesLibm
      = some board1000 := by
  have h0 : param (withImuRate 1000).imu_update_rate 1000.0 ≠ 0 := by
    norm_num [param, withImuRate]
  have hp : toUnsigned 64 (1e6 / param (withImuRate 1000).imu_update_rate 1000.0)
      = some 1000 := by
    have h := toUnsigned_natCast (R := ℚ) 64 1000 (by norm_num)
    have e : (1e6 : ℚ) / param (withImuRate 1000).imu_update_rate 1000.0 = ((1000 : ℕ) : ℚ) := by
      norm_num [param, withImuRate]
    rw [e]
    exact h
  obtain ⟨b1, h, -, -⟩ := gazebo_setup_defined (blank ℚ) (still 0 0) (withImuRate 1000)
    "multirotor" zeroEngine seriesLibm 1000 h0 hp
  rw [board1000, h]
  rfl

/-- C1 at the board left by set-up at 1000 Hz: the poll at clock value 0 fires. -/
theorem new_imu_data_transition_witness :
    new_imu_data board1000 0 =
        (true, { board1000 with
          next_imu_update_time_us := uint64_add 0 board1000.imu_update_period_us }) :=
  (new_imu_data_transition board1000 0).1
    (by rw [(gazebo_setup_schedule _ _ _ _ _ _ _ gazebo_setup_1000).2.2.2])

/-- C2: for every configured rate `r > 0` (the parameter `imu_update_rate`, or its
default), with `p` the period `1e6/r` truncated to an integer that
`gazebo_setup` stores in `imu_update_period_us`, and every clock
value `t` at which `new_imu_data` returned true: further calls at any clock
values `u` with `t <= u < t + p` (non-decreasing or not) all return false and
leave the board as the call at `t` left it, the first call at `t + p` returns
true, and calls spaced exactly `p` microseconds apart, starting at `t`, each
return true.  Here `t + p` is the 64-bit unsigned sum, the plain sum whenever
that fits in 64 bits. -/
theorem new_imu_data_period [LinearOrderedField R] [FloorRing R]
    (b0 : SIL_Board R) (world : Gazebo R) (nh : NodeHandle R) (mav_type : String)
    (seeded : RandomGenerator R) (m : Libm R) (b1 b : SIL_Board R)
    (r : R) (t : Nat) (ts : List Nat) (n : Nat)
    (hr : 0 < r) (hnh : param nh.imu_update_rate 1000.0 = r)
    (hsetup : gazebo_setup b0 world nh mav_type seeded m = some b1)
    (hperiod : b.imu_update_period_us = b1.imu_update_period_us)
    (hfire : (new_imu_data b t).1 = true)
    (hts : ∀ u ∈ ts, t ≤ u ∧ u < uint64_add t ⌊(1e6 : R) / r⌋₊) :
    b.imu_update_period_us = ⌊(1e6 : R) / r⌋₊ ∧
    new_imu_data_calls (new_imu_data b t).2 ts
      = (ts.map fun _ => false, (new_imu_data b t).2) ∧
    (new_imu_data (new_imu_data_calls (new_imu_data b t).2 ts).2
      (uint64_add t ⌊(1e6 : R) / r⌋₊)).1 = true ∧
    (new_imu_data_calls b (List.iterate (fun u => uint64_add u ⌊(1e6 : R) / r⌋₊) t n)).1
      = List.replicate n true ∧
    (t + ⌊(1e6 : R) / r⌋₊ < 2 ^ 64 → uint64_add t ⌊(1e6 : R) / r⌋₊ = t + ⌊(1e6 : R) / r⌋₊) := by
  have hp : b.imu_update_period_us = ⌊(1e6 : R) / r⌋₊ := by
    have h1 := (gazebo_setup_schedule b0 world nh mav_type seeded m b1 hsetup).2.1
    rw [hnh] at h1
    rw [hperiod]
    exact toUnsigned_eq_some 64 _ _ h1 (by positivity)
  have ht : t ≥ b.next_imu_update_time_us := by
    by_contra hlt
    rw [new_imu_data_waits b t (not_le.mp hlt)] at hfire
    exact Bool.false_ne_true hfire
  have hnext : (new_imu_data b t).2.next_imu_update_time_us
      = uint64_add t ⌊(1e6 : R) / r⌋₊ := by
    rw [new_imu_data_fires b t ht, hp]
  have hquiet := new_imu_data_calls_quiet (new_imu_data b t).2 ts
    (fun u hu => by rw [hnext]; exact (hts u hu).2)
  refine ⟨hp, hquiet, ?_, new_imu_data_calls_spaced _ n b t hp ht, uint64_add_of_lt t _⟩
  rw [hquiet, new_imu_data_fires _ _ (le_of_eq hnext)]

/-- C2 at the rate 1000 Hz: after the poll at 0 fired, polls at 500 and 999 do not,
the poll at 1000 does, and polls at 0, 1000, 2000 all fire. -/
theorem new_imu_data_period_witness :
    board1000.imu_update_period_us = ⌊(1e6 : ℚ) / 1000⌋₊ ∧
    new_imu_data_calls (new_imu_data board1000 0).2 [500, 999]
      = ([500, 999].map fun _ => false, (new_imu_data board1000 0).2) ∧
    (new_imu_data (new_imu_data_calls (new_imu_data board1000 0).2 [500, 999]).2
      (uint64_add 0 ⌊(1e6 : ℚ) / 1000⌋₊)).1 = true ∧
    (new_imu_data_calls board1000
      (List.iterate (fun u => uint64_add u ⌊(1e6 : ℚ) / 1000⌋₊) 0 3)).1
      = List.replicate 3 true ∧
    (0 + ⌊(1e6 : ℚ) / 1000⌋₊ < 2 ^ 64 →
      uint64_add 0 ⌊(1e6 : ℚ) / 1000⌋₊ = 0 + ⌊(1e6 : ℚ) / 1000⌋₊) :=
  have hfloor : ⌊(1e6 : ℚ) / 1000⌋₊ = 1000 := by
    have e : (1e6 : ℚ) / 1000 = ((1000 : ℕ) : ℚ) := by norm_num
    rw [e, Nat.floor_natCast]
  have hnext : board1000.next_imu_update_time_us = 0 :=
    (gazebo_setup_schedule _ _ _ _ _ _ _ gazebo_setup_1000).2.2.2
  new_imu_data_period (blank ℚ) (still 0 0) (withImuRate 1000) "multirotor" zeroEngine
    seriesLibm board1000 board1000 1000 0 [500, 999] 3 (by norm_num) rfl gazebo_setup_1000 rfl
    (by rw [new_imu_data_fires board1000 0 (by rw [hnext])])
    (by
      rw [hfloor]
      intro u hu
      simp only [List.mem_cons, List.mem_singleton, List.not_mem_nil, or_false] at hu
      rcases hu with rfl | rfl <;> simp [uint64_add])

/-- C3, as stated, fails: at 1000 Hz the four polls at clock values 0, 500, 999 and
1000 after `gazebo_setup` return true, false, false, true; the first one is not
false, because `gazebo_setup` leaves `next_imu_update_time_us` at 0 and the
test is `now_us >= next_imu_update_time_us`. -/
theorem first_poll_after_setup_fires :
    (gazebo_setup (blank ℚ) (still 0 0) (withImuRate 1000) "multirotor" zeroEngine
        seriesLibm).map (fun b => (new_imu_data_calls b [0, 500, 999, 1000]).1)
      = some [true, false, false, true] ∧
    (gazebo_setup (blank ℚ) (still 0 0) (withImuRate 1000) "multirotor" zeroEngine
        seriesLibm).map (fun b => (new_imu_data_calls b [0, 500, 999, 1000]).1)
      ≠ some [false, false, false, true] := by
  have hs := gazebo_setup_schedule _ _ _ _ _ _ _ gazebo_setup_1000
  have hp : board1000.imu_update_period_us = 1000 := by
    have h := toUnsigned_eq_some 64 _ _ hs.2.1 (by norm_num [param, withImuRate])
    rw [h]
    have e : (1e6 : ℚ) / param (withImuRate 1000).imu_update_rate 1000.0 = ((1000 : ℕ) : ℚ) := by
      norm_num [param, withImuRate]
    rw [e, Nat.floor_natCast]
  rw [gazebo_setup_1000, Option.map_some', new_imu_data_calls_1000 board1000 hp hs.2.2.2]
  exact ⟨rfl, by decide⟩

/-- C3, amended: starting from the board left by `gazebo_setup` with
`imu_update_rate = 1000` (period 1000 us, next update time 0), the four polls
at clock values 0, 500, 999 and 1000 return true, false, false, true, and after
the poll at 1000 `next_imu_update_time_us` is 2000. -/
theorem gazebo_setup_polls [LinearOrderedField R] [FloorRing R]
    (b0 : SIL_Board R) (world : Gazebo R) (nh : NodeHandle R) (mav_type : String)
    (seeded : RandomGenerator R) (m : Libm R)
    (hrate : param nh.imu_update_rate 1000.0 = 1000) :
    ∃ b1, gazebo_setup b0 world nh mav_type seeded m = some b1 ∧
      b1.imu_update_period_us = 1000 ∧
      b1.next_imu_update_time_us = 0 ∧
      (new_imu_data_calls b1 [0, 500, 999, 1000]).1 = [true, false, false, true] ∧
      (new_imu_data_calls b1 [0, 500, 999, 1000]).2.next_imu_update_time_us = 2000 := by
  have hp : toUnsigned 64 ((1e6 : R) / param nh.imu_update_rate 1000.0) = some 1000 := by
    have e : (1e6 : R) / param nh.imu_update_rate 1000.0 = ((1000 : ℕ) : R) := by
      rw [hrate]
      norm_num
    rw [e]
    exact toUnsigned_natCast 64 1000 (by norm_num)
  obtain ⟨b1, h, hper, hnext⟩ := gazebo_setup_defined b0 world nh mav_type seeded m 1000
    (by rw [hrate]; norm_num) hp
  refine ⟨b1, h, hper, hnext, ?_, ?_⟩ <;> rw [new_imu_data_calls_1000 b1 hper hnext]

/-- C3, amended, at the blank board with only `imu_update_rate = 1000` configured. -/
theorem gazebo_setup_polls_witness :
    ∃ b1, gazebo_setup (blank ℚ) (still 0 0) (withImuRate 1000) "multirotor" zeroEngine
        seriesLibm = some b1 ∧
      b1.imu_update_period_us = 1000 ∧
      b1.next_imu_update_time_us = 0 ∧
      (new_imu_data_calls b1 [0, 500, 999, 1000]).1 = [true, false, false, true] ∧
      (new_imu_data_calls b1 [0, 500, 999, 1000]).2.next_imu_update_time_us = 2000 :=
  gazebo_setup_polls (blank ℚ) (still 0 0) (withImuRate 1000) "multirotor" zeroEngine
    seriesLibm (by norm_num [param, withImuRate])

/-! ## Sonar: theorems -/

/-- C4: `sonar_read` is clamped.  With `alt` the world-frame vertical position of
the link (no ground-altitude offset): if `alt < sonar_min_range` it returns
exactly `sonar_min_range`, else if `alt > sonar_max_range` it returns exactly
`sonar_max_range`, and in both cases the board, the random engine included, is
left as it was; otherwise it returns `alt + sonar_stdev * g` with `g` the next
Gaussian draw, and only the engine advances, by that one draw. -/
theorem sonar_read_clamped [LinearOrderedField R] (b : SIL_Board R) (world : Gazebo R) :
    (world.WorldPose.Pos.Z < b.sonar_min_range →
      sonar_read b world = (b.sonar_min_range, b)) ∧
    (¬ world.WorldPose.Pos.Z < b.sonar_min_range → world.WorldPose.Pos.Z > b.sonar_max_range →
      sonar_read b world = (b.sonar_max_range, b)) ∧
    (¬ world.WorldPose.Pos.Z < b.sonar_min_range → ¬ world.WorldPose.Pos.Z > b.sonar_max_range →
      sonar_read b world =
        (world.WorldPose.Pos.Z + b.sonar_stdev * b.random_generator.normal b.random_generator.used,
         { b with random_generator :=
            { b.random_generator with used := b.random_generator.used + 1 } })) := by
  refine ⟨fun h => ?_, fun h1 h2 => ?_, fun h1 h2 => ?_⟩
  · simp only [sonar_read, if_pos h]
  · simp only [sonar_read, if_neg h1, if_pos h2]
  · simp only [sonar_read, if_neg h1, if_neg h2, normal_distribution]

/-- C4 at the default sonar parameters (range 0.25 to 8, stdev 1.15) with an engine
that draws 2: at height 0.1 the reading is 0.25 and the board is unchanged. -/
theorem sonar_read_clamped_witness :
    sonar_read sonarBoard (still 0 0.1) = (sonarBoard.sonar_min_range, sonarBoard) :=
  (sonar_read_clamped sonarBoard (still 0 0.1)).1 (by norm_num [still, sonarBoard])

/-! ## PWM: theorems -/

theorem append_singleton_eq_append_cons {α : Type} (xs pre post : List α) (a x : α)
    (h : xs ++ [a] = pre ++ x :: post) :
    (post = [] ∧ xs = pre ∧ a = x) ∨ ∃ post1, post = post1 ++ [a] ∧ xs = pre ++ x :: post1 := by
  rcases List.eq_nil_or_concat post with rfl | ⟨L, c, rfl⟩
  · left
    have h2 := List.append_inj' h rfl
    exact ⟨rfl, h2.1, by simpa using h2.2⟩
  · right
    have h1 : xs ++ [a] = (pre ++ x :: L) ++ [c] := by
      rw [h, List.concat_eq_append, List.append_assoc, List.cons_append]
    have h2 := List.append_inj' h1 rfl
    have hc : a = c := by simpa using h2.2
    exact ⟨L, by rw [hc, List.concat_eq_append], h2.1⟩

theorem pwm_read_keeps_board (b : SIL_Board R) (numPublishers channel : Nat) :
    (pwm_read b numPublishers channel).2 = b := by
  unfold pwm_read
  split_ifs <;> rfl

theorem pwm_write_defined (b : SIL_Board R) (channel value : Nat) (h : channel < 14) :
    pwm_write b channel value
      = some { b with pwm_outputs := Function.update b.pwm_outputs ⟨channel, h⟩ value } := by
  simp only [pwm_write, dif_pos h]

theorem pwm_write_throttle (b : SIL_Board R) (value : Nat) :
    ∃ b1, pwm_write b 2 value = some b1 ∧ b1.pwm_outputs 2 = value := by
  refine ⟨_, pwm_write_defined b 2 value (by decide), ?_⟩
  exact Function.update_same (2 : Fin 14) value b.pwm_outputs

theorem pwm_write_other (b : SIL_Board R) (channel value : Nat) (h : channel < 14)
    (h2 : channel ≠ 2) :
    ∃ b1, pwm_write b channel value = some b1 ∧ b1.pwm_outputs 2 = b.pwm_outputs 2 := by
  refine ⟨_, pwm_write_defined b channel value h, ?_⟩
  apply Function.update_noteq
  intro e
  exact h2 (congrArg Fin.val e).symm

theorem pwm_write_flag (b b1 : SIL_Board R) (channel value : Nat)
    (h : pwm_write b channel value = some b1) : b1.rc_received = b.rc_received := by
  by_cases hc : channel < 14
  · rw [pwm_write_defined b channel value hc] at h
    rw [← Option.some.inj h]
  · simp [pwm_write, hc] at h

theorem pwm_write_frame (b b1 : SIL_Board R) (channel value : Nat)
    (h : pwm_write b channel value = some b1) : b1.latestRC = b.latestRC := by
  by_cases hc : channel < 14
  · rw [pwm_write_defined b channel value hc] at h
    rw [← Option.some.inj h]
  · simp [pwm_write, hc] at h

theorem pwm_calls_frame (b b1 : SIL_Board R) (calls : List PwmCall)
    (hquiet : ∀ c ∈ calls, c.isInit = false ∧ c.isFrame = false)
    (h : pwm_calls b calls = some b1) : b1.latestRC = b.latestRC := by
  induction calls generalizing b with
  | nil =>
    rw [← Option.some.inj h]
  | cons c rest ih =>
    have hc := hquiet c (List.mem_cons_self c rest)
    have hrest : ∀ d ∈ rest, d.isInit = false ∧ d.isFrame = false :=
      fun d hd => hquiet d (List.mem_cons_of_mem c hd)
    simp only [pwm_calls] at h
    cases hcall : pwm_call b c with
    | none =>
      rw [hcall] at h
      exact absurd h (by simp)
    | some b2 =>
      rw [hcall, Option.some_bind] at h
      rw [ih b2 hrest h]
      cases c with
      | init cppm refresh_rate idle_pwm => exact absurd hc.1 (by simp [PwmCall.isInit])
      | read numPublishers channel =>
        have e : (pwm_read b numPublishers channel).2 = b2 := Option.some.inj hcall
        rw [← e, pwm_read_keeps_board]
      | write channel value => exact pwm_write_frame b b2 channel value hcall
      | rc msg => exact absurd hc.2 (by simp [PwmCall.isFrame])

theorem pwm_writes_append (b : SIL_Board R) (xs ys : List (Nat × Nat)) :
    pwm_writes b (xs ++ ys) = (pwm_writes b xs).bind fun b1 => pwm_writes b1 ys := by
  induction xs generalizing b with
  | nil => rfl
  | cons w rest ih =>
    obtain ⟨channel, value⟩ := w
    simp only [List.cons_append, pwm_writes]
    cases pwm_write b channel value with
    | none => rfl
    | some b1 => exact ih b1

theorem pwm_calls_append (b : SIL_Board R) (xs ys : List PwmCall) :
    pwm_calls b (xs ++ ys) = (pwm_calls b xs).bind fun b1 => pwm_calls b1 ys := by
  induction xs generalizing b with
  | nil => rfl
  | cons c rest ih =>
    simp only [List.cons_append, pwm_calls]
    cases pwm_call b c with
    | none => rfl
    | some b1 => exact ih b1

theorem pwm_writes_throttle (b : SIL_Board R) (hb : ¬ b.pwm_outputs 2 > 1100)
    (writes : List (Nat × Nat)) (hrange : ∀ w ∈ writes, w.1 < 14) :
    ∃ b1, pwm_writes b writes = some b1 ∧
      (b1.pwm_outputs 2 > 1100 ↔
        ∃ pre value post, writes = pre ++ (2, value) :: post ∧
          (∀ w ∈ post, w.1 ≠ 2) ∧ value > 1100) := by
  induction writes using List.reverseRecOn with
  | nil =>
    refine ⟨b, rfl, ?_⟩
    constructor
    · intro h
      exact absurd h hb
    · rintro ⟨pre, value, post, h, -⟩
      exact absurd h (by simp)
  | append_singleton ws w ih =>
    obtain ⟨channel, v⟩ := w
    obtain ⟨b1, hrun, hiff⟩ := ih (fun w hw => hrange w (List.mem_append_left _ hw))
    have hch : channel < 14 := hrange (channel, v) (by simp)
    by_cases h2 : channel = 2
    · subst h2
      obtain ⟨b2, hw, hout⟩ := pwm_write_throttle b1 v
      refine ⟨b2, ?_, ?_⟩
      · rw [pwm_writes_append, hrun]
        simp only [Option.some_bind, pwm_writes, hw]
      · rw [hout]
        constructor
        · intro hv
          exact ⟨ws, v, [], rfl, by simp, hv⟩
        · rintro ⟨pre, value, post, h, hpost, hv⟩
          rcases append_singleton_eq_append_cons ws pre post _ _ h with ⟨-, -, e⟩ | ⟨post1, e, -⟩
          · have : v = value := congrArg Prod.snd e
            rw [this]
            exact hv
          · exact absurd rfl (hpost (2, v) (by rw [e]; simp))
    · obtain ⟨b2, hw, hout⟩ := pwm_write_other b1 channel v hch h2
      refine ⟨b2, ?_, ?_⟩
      · rw [pwm_writes_append, hrun]
        simp only [Option.some_bind, pwm_writes, hw]
      · rw [hout, hiff]
        constructor
        · rintro ⟨pre, value, post, h, hpost, hv⟩
          refine ⟨pre, value, post ++ [(channel, v)], by rw [h]; simp, ?_, hv⟩
          intro w hw
          rcases List.mem_append.mp hw with hw1 | hw1
          · exact hpost w hw1
          · rw [List.mem_singleton.mp hw1]
            exact h2
        · rintro ⟨pre, value, post, h, hpost, hv⟩
          rcases append_singleton_eq_append_cons ws pre post _ _ h with ⟨-, -, e⟩ | ⟨post1, e, hws⟩
          · exact absurd (congrArg Prod.fst e) h2
          · refine ⟨pre, value, post1, hws, ?_, hv⟩
            intro w hw
            exact hpost w (by rw [e]; exact List.mem_append_left _ hw)

/-- C5: the fail-safe of `pwm_read`.  For every channel: with no publisher on the RC
topic it returns 1000 for channel 2 and 1500 for every other channel, whatever
`latestRC` holds; with a publisher it returns `latestRC.values[channel]`, which
is the value of the frame received last: the frame of an `RCCallback`, also
after any later calls of `pwm_read` and `pwm_write`.  The board is left as it
was. -/
theorem pwm_read_failsafe (b : SIL_Board R) (numPublishers channel : Nat) :
    (numPublishers = 0 →
      (pwm_read b numPublishers channel).1 = if channel = 2 then 1000 else 1500) ∧
    (numPublishers > 0 → (pwm_read b numPublishers channel).1 = b.latestRC.values channel) ∧
    (∀ (msg : RCRaw) (later : List PwmCall) (b1 : SIL_Board R), numPublishers > 0 →
      (∀ c ∈ later, c.isInit = false ∧ c.isFrame = false) →
      pwm_calls (RCCallback b msg) later = some b1 →
      (pwm_read b1 numPublishers channel).1 = msg.values channel) ∧
    (pwm_read b numPublishers channel).2 = b := by
  refine ⟨fun h => ?_, fun h => ?_, fun msg later b1 h hquiet hrun => ?_, ?_⟩
  · subst h
    by_cases hc : channel = 2 <;> simp [pwm_read, hc]
  · simp only [pwm_read, if_pos h]
  · simp only [pwm_read, if_pos h, pwm_calls_frame _ b1 later hquiet hrun, RCCallback]
  · exact pwm_read_keeps_board b numPublishers channel

/-- C5 at a concrete board: a frame with 1200 on every channel, then a write and a
read; channel 2 reads 1000 without a publisher and 1200 with one. -/
theorem pwm_read_failsafe_witness :
    (pwm_read (blank ℚ) 0 2).1 = (if 2 = 2 then 1000 else 1500) ∧
    (∃ b1, pwm_calls (RCCallback (blank ℚ) ⟨fun _ => 1200⟩)
        [PwmCall.write 2 1500, PwmCall.read 1 0] = some b1 ∧
      (pwm_read b1 1 2).1 = 1200) :=
  ⟨(pwm_read_failsafe (blank ℚ) 0 2).1 rfl,
    _, rfl,
    (pwm_read_failsafe (blank ℚ) 1 2).2.2.1 ⟨fun _ => 1200⟩
      [PwmCall.write 2 1500, PwmCall.read 1 0] _ (by decide)
      (by
        intro c hc
        simp only [List.mem_cons, List.mem_singleton, List.not_mem_nil, or_false] at hc
        rcases hc with rfl | rfl <;> exact ⟨rfl, rfl⟩)
      rfl⟩

theorem pwm_calls_flag (b : SIL_Board R) (hb : b.rc_received = false)
    (calls : List PwmCall) (hrange : ∀ c ∈ calls, c.outOfRange = false) :
    ∃ b1, pwm_calls b calls = some b1 ∧
      (b1.rc_received = true ↔
        ∃ pre msg post, calls = pre ++ PwmCall.rc msg :: post ∧
          ∀ c ∈ post, c.isInit = false) := by
  induction calls using List.reverseRecOn with
  | nil =>
    refine ⟨b, rfl, ?_⟩
    constructor
    · intro h
      rw [hb] at h
      exact absurd h (by decide)
    · rintro ⟨pre, msg, post, h, -⟩
      exact absurd h (by simp)
  | append_singleton cs c ih =>
    obtain ⟨b1, hrun, hiff⟩ := ih (fun d hd => hrange d (List.mem_append_left _ hd))
    have hc : c.outOfRange = false := hrange c (by simp)
    have keep : ∀ b2 : SIL_Board R, pwm_call b1 c = some b2 → c.isInit = false →
        (∀ msg, c ≠ PwmCall.rc msg) → b2.rc_received = b1.rc_received →
        ∃ b3, pwm_calls b (cs ++ [c]) = some b3 ∧
          (b3.rc_received = true ↔
            ∃ pre msg post, cs ++ [c] = pre ++ PwmCall.rc msg :: post ∧
              ∀ d ∈ post, d.isInit = false) := by
      intro b2 hcall hinit hrc hflag
      refine ⟨b2, ?_, ?_⟩
      · rw [pwm_calls_append, hrun]
        simp only [Option.some_bind, pwm_calls, hcall]
      · rw [hflag, hiff]
        constructor
        · rintro ⟨pre, msg, post, h, hpost⟩
          refine ⟨pre, msg, post ++ [c], by rw [h]; simp, ?_⟩
          intro d hd
          rcases List.mem_append.mp hd with hd1 | hd1
          · exact hpost d hd1
          · rw [List.mem_singleton.mp hd1]
            exact hinit
        · rintro ⟨pre, msg, post, h, hpost⟩
          rcases append_singleton_eq_append_cons cs pre post _ _ h with ⟨-, -, e⟩ | ⟨post1, e, hcs⟩
          · exact absurd e (hrc msg)
          · refine ⟨pre, msg, post1, hcs, ?_⟩
            intro d hd
            exact hpost d (by rw [e]; exact List.mem_append_left _ hd)
    cases c with
    | init cppm refresh_rate idle_pwm =>
      refine ⟨pwm_init b1 cppm refresh_rate idle_pwm, ?_, ?_⟩
      · rw [pwm_calls_append, hrun]
        rfl
      · constructor
        · intro h
          exact absurd h (by simp [pwm_init])
        · rintro ⟨pre, msg, post, h, hpost⟩
          rcases append_singleton_eq_append_cons cs pre post _ _ h with ⟨-, -, e⟩ | ⟨post1, e, -⟩
          · exact absurd e (by simp)
          · have := hpost (PwmCall.init cppm refresh_rate idle_pwm) (by rw [e]; simp)
            exact absurd this (by simp [PwmCall.isInit])
    | read numPublishers channel =>
      refine keep (pwm_read b1 numPublishers channel).2 rfl rfl (fun msg => by simp) ?_
      rw [pwm_read_keeps_board]
    | write channel value =>
      have hch : channel < 14 := by
        simpa [PwmCall.outOfRange] using hc
      exact keep _ (pwm_write_defined b1 channel value hch) rfl (fun msg => by simp) rfl
    | rc msg =>
      refine ⟨RCCallback b1 msg, ?_, ?_⟩
      · rw [pwm_calls_append, hrun]
        rfl
      · constructor
        · intro _
          exact ⟨cs, msg, [], rfl, by simp⟩
        · intro _
          rfl

/-- C6: `motors_spinning` is false immediately after `pwm_init`; after any sequence
of `pwm_write` calls to channels of `pwm_outputs_` following `pwm_init` it is
true if and only if the sequence has a write to channel 2 whose value exceeds
1100 and that no later write to channel 2 follows (so false when channel 2 was
never written); a write to another channel of the array does not change it. -/
theorem motors_spinning_last_throttle (b : SIL_Board R) (cppm : Bool)
    (refresh_rate idle_pwm : Nat) (writes : List (Nat × Nat))
    (hrange : ∀ w ∈ writes, w.1 < 14) :
    motors_spinning (pwm_init b cppm refresh_rate idle_pwm) = false ∧
    (∃ b1, pwm_writes (pwm_init b cppm refresh_rate idle_pwm) writes = some b1 ∧
      (motors_spinning b1 = true ↔
        ∃ pre value post, writes = pre ++ (2, value) :: post ∧
          (∀ w ∈ post, w.1 ≠ 2) ∧ value > 1100)) ∧
    (∀ (b2 : SIL_Board R) (channel value : Nat), channel < 14 → channel ≠ 2 →
      ∃ b3, pwm_write b2 channel value = some b3 ∧
        motors_spinning b3 = motors_spinning b2) := by
  have hinit : (pwm_init b cppm refresh_rate idle_pwm).pwm_outputs 2 = 1000 := rfl
  refine ⟨?_, ?_, ?_⟩
  · simp [motors_spinning, hinit]
  · obtain ⟨b1, hrun, hiff⟩ := pwm_writes_throttle (pwm_init b cppm refresh_rate idle_pwm)
      (by rw [hinit]; decide) writes hrange
    refine ⟨b1, hrun, ?_⟩
    rw [← hiff]
    simp [motors_spinning]
  · intro b2 channel value hch h2
    obtain ⟨b3, hw, hout⟩ := pwm_write_other b2 channel value hch h2
    exact ⟨b3, hw, by simp only [motors_spinning, hout]⟩

/-- C6 on a concrete sequence: throttle written 1500 and then 1050, with a write to
channel 0 in between. -/
theorem motors_spinning_last_throttle_witness :
    motors_spinning (pwm_init (blank ℚ) false 490 1000) = false ∧
    (∃ b1, pwm_writes (pwm_init (blank ℚ) false 490 1000) [(2, 1500), (0, 2000), (2, 1050)]
        = some b1 ∧
      (motors_spinning b1 = true ↔
        ∃ pre value post, [(2, 1500), (0, 2000), (2, 1050)] = pre ++ (2, value) :: post ∧
          (∀ w ∈ post, w.1 ≠ 2) ∧ value > 1100)) ∧
    (∀ (b2 : SIL_Board ℚ) (channel value : Nat), channel < 14 → channel ≠ 2 →
      ∃ b3, pwm_write b2 channel value = some b3 ∧
        motors_spinning b3 = motors_spinning b2) :=
  motors_spinning_last_throttle (blank ℚ) false 490 1000 [(2, 1500), (0, 2000), (2, 1050)]
    (by decide)

/-- C7, as stated, fails: after `pwm_init` channel 0 of `pwm_outputs` is 1000, not
the neutral 1500. -/
theorem pwm_init_output_not_neutral :
    (pwm_init (blank ℚ) false 490 1000).pwm_outputs 0 = 1000 ∧
    (pwm_init (blank ℚ) false 490 1000).pwm_outputs 0 ≠ 1500 :=
  ⟨rfl, by decide⟩

/-- C7, amended: for every prior board, after `pwm_init` every one of the 14 channels
of `pwm_outputs`, the throttle channel 2 included, is at the minimum 1000, and
the RC-received flag is cleared.  The neutral value 1500 is stored in the RC
input frame `latestRC` only: channels 0, 1 and 3 are 1500 and channels 2, 4 and
5 are 1000. -/
theorem pwm_init_defaults (b : SIL_Board R) (cppm : Bool) (refresh_rate idle_pwm : Nat) :
    (∀ i : Fin 14, (pwm_init b cppm refresh_rate idle_pwm).pwm_outputs i = 1000) ∧
    (pwm_init b cppm refresh_rate idle_pwm).rc_received = false ∧
    (pwm_init b cppm refresh_rate idle_pwm).latestRC.values 0 = 1500 ∧
    (pwm_init b cppm refresh_rate idle_pwm).latestRC.values 1 = 1500 ∧
    (pwm_init b cppm refresh_rate idle_pwm).latestRC.values 3 = 1500 ∧
    (pwm_init b cppm refresh_rate idle_pwm).latestRC.values 2 = 1000 ∧
    (pwm_init b cppm refresh_rate idle_pwm).latestRC.values 4 = 1000 ∧
    (pwm_init b cppm refresh_rate idle_pwm).latestRC.values 5 = 1000 := by
  refine ⟨fun _ => rfl, rfl, ?_, ?_, ?_, ?_, ?_, ?_⟩ <;> simp [pwm_init, Function.update]

/-- C8: `pwm_lost` is true until an RC frame has been received.  In every board
reached from `pwm_init` by `pwm_init`, `pwm_read`, `pwm_write` (to a channel of
`pwm_outputs_`) and `RCCallback` calls, `pwm_lost` returns true if and only if
no `RCCallback` has occurred since the last `pwm_init`; `pwm_read` and
`pwm_write` never change its result. -/
theorem pwm_lost_until_frame (b : SIL_Board R) (cppm : Bool) (refresh_rate idle_pwm : Nat)
    (calls : List PwmCall) (hrange : ∀ c ∈ calls, c.outOfRange = false) :
    (∃ b1, pwm_calls (pwm_init b cppm refresh_rate idle_pwm) calls = some b1 ∧
      (pwm_lost b1 = true ↔
        ¬ ∃ pre msg post, calls = pre ++ PwmCall.rc msg :: post ∧
          ∀ c ∈ post, c.isInit = false)) ∧
    (∀ (b2 : SIL_Board R) (numPublishers channel : Nat),
      pwm_lost (pwm_read b2 numPublishers channel).2 = pwm_lost b2) ∧
    (∀ (b2 b3 : SIL_Board R) (channel value : Nat),
      pwm_write b2 channel value = some b3 → pwm_lost b3 = pwm_lost b2) := by
  refine ⟨?_, ?_, ?_⟩
  · obtain ⟨b1, hrun, hiff⟩ := pwm_calls_flag (pwm_init b cppm refresh_rate idle_pwm) rfl
      calls hrange
    refine ⟨b1, hrun, ?_⟩
    rw [← hiff]
    simp [pwm_lost]
  · intro b2 numPublishers channel
    rw [pwm_read_keeps_board]
  · intro b2 b3 channel value h
    simp only [pwm_lost, pwm_write_flag b2 b3 channel value h]

/-- C8 on a concrete run: a read, a frame, a write, a second `pwm_init`, a write. -/
theorem pwm_lost_until_frame_witness :
    (∃ b1, pwm_calls (pwm_init (blank ℚ) false 490 1000)
        [PwmCall.read 0 2, PwmCall.rc ⟨fun _ => 1200⟩, PwmCall.write 2 1500,
          PwmCall.init false 490 1000, PwmCall.write 0 1000] = some b1 ∧
      (pwm_lost b1 = true ↔
        ¬ ∃ pre msg post,
          [PwmCall.read 0 2, PwmCall.rc ⟨fun _ => 1200⟩, PwmCall.write 2 1500,
            PwmCall.init false 490 1000, PwmCall.write 0 1000]
              = pre ++ PwmCall.rc msg :: post ∧
          ∀ c ∈ post, c.isInit = false)) ∧
    (∀ (b2 : SIL_Board ℚ) (numPublishers channel : Nat),
      pwm_lost (pwm_read b2 numPublishers channel).2 = pwm_lost b2) ∧
    (∀ (b2 b3 : SIL_Board ℚ) (channel value : Nat),
      pwm_write b2 channel value = some b3 → pwm_lost b3 = pwm_lost b2) :=
  pwm_lost_until_frame (blank ℚ) false 490 1000
    [PwmCall.read 0 2, PwmCall.rc ⟨fun _ => 1200⟩, PwmCall.write 2 1500,
      PwmCall.init false 490 1000, PwmCall.write 0 1000]
    (by
      intro c hc
      simp only [List.mem_cons, List.mem_singleton, List.not_mem_nil, or_false] at hc
      rcases hc with rfl | rfl | rfl | rfl | rfl <;> rfl)

/-! ## Non-volatile memory: theorems -/

theorem memory_round_trip_when_directory_exists (b : SIL_Board R) (fs : FileSystem)
    (src dest : List Nat) (len : Nat) (dir_err : Int) (hsrc : src.length = len)
    (hdest : dest.length = len) (herr : dir_err ≠ -1)
    (hdir : (system_mkdir_p fs (memory_directory b) dir_err).directory (memory_directory b)
      = true) :
    (memory_write b fs src len dir_err).1 = true ∧
    memory_read b (memory_write b fs src len dir_err).2 dest len = (true, src) := by
  have htake : src.take len = src := by
    rw [← hsrc]
    exact List.take_length src
  have hdrop : dest.drop src.length = [] := by
    rw [hsrc, ← hdest]
    exact List.drop_length dest
  simp [memory_write, memory_read, herr, hdir, htake, hdrop]

theorem memory_round_trip_when_mkdir_succeeds (b : SIL_Board R) (fs : FileSystem)
    (src dest : List Nat) (len : Nat) (hsrc : src.length = len) (hdest : dest.length = len) :
    (memory_write b fs src len 0).1 = true ∧
    memory_read b (memory_write b fs src len 0).2 dest len = (true, src) :=
  memory_round_trip_when_directory_exists b fs src dest len 0 hsrc hdest (by decide)
    (by simp [system_mkdir_p])

/-- C9 at the failing input: in the namespace `/uav`, with no directory
`rosflight_memory/uav` and a `mkdir -p` that fails (`system` returns 256, exit
status 1), `memory_write([1,2,3], 3)` returns true although it stored nothing,
and the following `memory_read(dest, 3)` returns false and leaves `dest` as it
was.  Both functions address the path `rosflight_memory/uav/mem.bin`. -/
theorem memory_write_true_without_file :
    memory_path uavBoard = "rosflight_memory/uav/mem.bin" ∧
    (memory_write uavBoard emptyFileSystem [1, 2, 3] 3 256).1 = true ∧
    (memory_write uavBoard emptyFileSystem [1, 2, 3] 3 256).2.file (memory_path uavBoard)
      = none ∧
    memory_read uavBoard (memory_write uavBoard emptyFileSystem [1, 2, 3] 3 256).2
      [0, 0, 0] 3 = (false, [0, 0, 0]) := by
  refine ⟨by decide, ?_, ?_, ?_⟩ <;>
    simp [memory_write, memory_read, system_mkdir_p, emptyFileSystem]

/-! ## Clock: theorems -/

theorem toUnsigned_mono [LinearOrderedField R] [FloorRing R] (w : Nat) (x y : R)
    (h0 : 0 ≤ x) (hxy : x ≤ y) (hy : y < 2 ^ w) :
    toUnsigned w x = some ⌊x⌋₊ ∧ toUnsigned w y = some ⌊y⌋₊ ∧ ⌊x⌋₊ ≤ ⌊y⌋₊ :=
  ⟨toUnsigned_of_nonneg w x h0 (lt_of_le_of_lt hxy hy),
    toUnsigned_of_nonneg w y (le_trans h0 hxy) hy, Nat.floor_mono hxy⟩

/-- C10, as stated, fails: with boot time 0, `clock_millis` returns 4294967000 at
simulation time 4294967 s, and at the later time 4294968 s the product
`(SimTime - boot_time) * 1e3` is 4294968000, above every `uint32_t`, so the
conversion has no defined result: the call does not return the truncated
product and the clock is not non-decreasing over these two times.  The same
happens to `clock_micros` at 18446744073710 s, where the product is above every
`uint64_t`. -/
theorem clock_millis_out_of_range :
    clock_millis (init_board (blank ℚ) (still 0 0)) (still 4294967 0) = some 4294967000 ∧
    clock_millis (init_board (blank ℚ) (still 0 0)) (still 4294968 0) = none ∧
    clock_micros (init_board (blank ℚ) (still 0 0)) (still 18446744073710 0) = none := by
  refine ⟨?_, ?_, ?_⟩
  · have e : ((still (4294967 : ℚ) 0).SimTime - (init_board (blank ℚ) (still 0 0)).boot_time)
        * 1e3 = ((4294967000 : ℕ) : ℚ) := by
      norm_num [still, init_board]
    rw [clock_millis, e]
    exact toUnsigned_natCast 32 4294967000 (by norm_num)
  · apply toUnsigned_of_large
    norm_num [still, init_board]
  · apply toUnsigned_of_large
    norm_num [still, init_board]

/-- C10, amended: with `boot_time` the simulation time recorded by `init_board`, for
simulation times `boot_time <= t1 <= t2`: while `(t2 - boot_time) * 1e6` is
below `2 ^ 64`, `clock_micros` returns `(t - boot_time) * 1e6` truncated to an
integer at `t1` and at `t2`, and its value at `t1` is at most its value at
`t2`; while `(t2 - boot_time) * 1e3` is below `2 ^ 32`, the same holds of
`clock_millis` with `1e3`; both are 0 at `t = boot_time`. -/
theorem clock_monotone [LinearOrderedField R] [FloorRing R] (b : SIL_Board R)
    (boot w1 w2 : Gazebo R) (h1 : boot.SimTime ≤ w1.SimTime)
    (h2 : w1.SimTime ≤ w2.SimTime) :
    clock_micros (init_board b boot) boot = some 0 ∧
    clock_millis (init_board b boot) boot = some 0 ∧
    ((w2.SimTime - boot.SimTime) * 1e6 < 2 ^ 64 →
      clock_micros (init_board b boot) w1 = some ⌊(w1.SimTime - boot.SimTime) * 1e6⌋₊ ∧
      clock_micros (init_board b boot) w2 = some ⌊(w2.SimTime - boot.SimTime) * 1e6⌋₊ ∧
      ⌊(w1.SimTime - boot.SimTime) * 1e6⌋₊ ≤ ⌊(w2.SimTime - boot.SimTime) * 1e6⌋₊) ∧
    ((w2.SimTime - boot.SimTime) * 1e3 < 2 ^ 32 →
      clock_millis (init_board b boot) w1 = some ⌊(w1.SimTime - boot.SimTime) * 1e3⌋₊ ∧
      clock_millis (init_board b boot) w2 = some ⌊(w2.SimTime - boot.SimTime) * 1e3⌋₊ ∧
      ⌊(w1.SimTime - boot.SimTime) * 1e3⌋₊ ≤ ⌊(w2.SimTime - boot.SimTime) * 1e3⌋₊) := by
  have hd1 : 0 ≤ w1.SimTime - boot.SimTime := sub_nonneg.mpr h1
  have hd : w1.SimTime - boot.SimTime ≤ w2.SimTime - boot.SimTime :=
    sub_le_sub_right h2 _
  have h6 : (0 : R) ≤ 1e6 := by norm_num
  have h3 : (0 : R) ≤ 1e3 := by norm_num
  refine ⟨?_, ?_, fun hfit => ?_, fun hfit => ?_⟩
  · have e : (boot.SimTime - (init_board b boot).boot_time) * 1e6 = ((0 : ℕ) : R) := by
      simp [init_board]
    rw [clock_micros, e]
    exact toUnsigned_natCast 64 0 (by norm_num)
  · have e : (boot.SimTime - (init_board b boot).boot_time) * 1e3 = ((0 : ℕ) : R) := by
      simp [init_board]
    rw [clock_millis, e]
    exact toUnsigned_natCast 32 0 (by norm_num)
  · exact toUnsigned_mono 64 _ _ (mul_nonneg hd1 h6) (mul_le_mul_of_nonneg_right hd h6) hfit
  · exact toUnsigned_mono 32 _ _ (mul_nonneg hd1 h3) (mul_le_mul_of_nonneg_right hd h3) hfit

/-- C10, amended, at boot time 10 s and the simulation times 10.5 s and 12.25 s. -/
theorem clock_monotone_witness :
    (clock_micros (init_board (blank ℚ) (still 10 0)) (still 10.5 0)
        = some ⌊((still (10.5 : ℚ) 0).SimTime - (still (10 : ℚ) 0).SimTime) * 1e6⌋₊ ∧
      clock_micros (init_board (blank ℚ) (still 10 0)) (still 12.25 0)
        = some ⌊((still (12.25 : ℚ) 0).SimTime - (still (10 : ℚ) 0).SimTime) * 1e6⌋₊ ∧
      ⌊((still (10.5 : ℚ) 0).SimTime - (still (10 : ℚ) 0).SimTime) * 1e6⌋₊
        ≤ ⌊((still (12.25 : ℚ) 0).SimTime - (still (10 : ℚ) 0).SimTime) * 1e6⌋₊) ∧
    (clock_millis (init_board (blank ℚ) (still 10 0)) (still 10.5 0)
        = some ⌊((still (10.5 : ℚ) 0).SimTime - (still (10 : ℚ) 0).SimTime) * 1e3⌋₊ ∧
      clock_millis (init_board (blank ℚ) (still 10 0)) (still 12.25 0)
        = some ⌊((still (12.25 : ℚ) 0).SimTime - (still (10 : ℚ) 0).SimTime) * 1e3⌋₊ ∧
      ⌊((still (10.5 : ℚ) 0).SimTime - (still (10 : ℚ) 0).SimTime) * 1e3⌋₊
        ≤ ⌊((still (12.25 : ℚ) 0).SimTime - (still (10 : ℚ) 0).SimTime) * 1e3⌋₊) :=
  ⟨(clock_monotone (blank ℚ) (still 10 0) (still 10.5 0) (still 12.25 0)
      (by norm_num [still]) (by norm_num [still])).2.2.1 (by norm_num [still]),
    (clock_monotone (blank ℚ) (still 10 0) (still 10.5 0) (still 12.25 0)
      (by norm_num [still]) (by norm_num [still])).2.2.2 (by norm_num [still])⟩

/-! ## Bias random walk: theorems -/

theorem add_normal_zero [LinearOrderedField R] (v : Vector3d R) (g : RandomGenerator R) :
    (add_normal v 0 g).1 = v := by
  cases v
  simp [add_normal]

theorem sonar_read_keeps [LinearOrderedField R] (b : SIL_Board R) (world : Gazebo R) :
    ∃ g, (sonar_read b world).2 = { b with random_generator := g } := by
  by_cases h1 : world.WorldPose.Pos.Z < b.sonar_min_range
  · exact ⟨b.random_generator, by simp only [sonar_read, if_pos h1]⟩
  · by_cases h2 : world.WorldPose.Pos.Z > b.sonar_max_range
    · exact ⟨b.random_generator, by simp only [sonar_read, if_neg h1, if_pos h2]⟩
    · exact ⟨(normal_distribution b.random_generator).2,
        by simp only [sonar_read, if_neg h1, if_neg h2]⟩

theorem sensor_call_walk [LinearOrderedField R] (gm : GazeboMath R) (pow : R → R → R)
    (b : SIL_Board R) (c : SensorCall R) :
    (sensor_call gm pow b c).acc_bias_walk_stdev = b.acc_bias_walk_stdev ∧
    (sensor_call gm pow b c).gyro_bias_walk_stdev = b.gyro_bias_walk_stdev ∧
    (sensor_call gm pow b c).mag_bias_walk_stdev = b.mag_bias_walk_stdev ∧
    (sensor_call gm pow b c).baro_bias_walk_stdev = b.baro_bias_walk_stdev ∧
    (sensor_call gm pow b c).airspeed_bias_walk_stdev = b.airspeed_bias_walk_stdev := by
  cases c with
  | imu world now_us => exact ⟨rfl, rfl, rfl, rfl, rfl⟩
  | mag world => exact ⟨rfl, rfl, rfl, rfl, rfl⟩
  | baro world => exact ⟨rfl, rfl, rfl, rfl, rfl⟩
  | diff_pressure world => exact ⟨rfl, rfl, rfl, rfl, rfl⟩
  | sonar world =>
    obtain ⟨g, hg⟩ := sonar_read_keeps b world
    show (sonar_read b world).2.acc_bias_walk_stdev = _ ∧
      (sonar_read b world).2.gyro_bias_walk_stdev = _ ∧
      (sonar_read b world).2.mag_bias_walk_stdev = _ ∧
      (sonar_read b world).2.baro_bias_walk_stdev = _ ∧
      (sonar_read b world).2.airspeed_bias_walk_stdev = _
    rw [hg]
    exact ⟨rfl, rfl, rfl, rfl, rfl⟩

theorem sensor_call_bias [LinearOrderedField R] (gm : GazeboMath R) (pow : R → R → R)
    (b : SIL_Board R) (c : SensorCall R) :
    (b.acc_bias_walk_stdev = 0 → (sensor_call gm pow b c).acc_bias = b.acc_bias) ∧
    (b.gyro_bias_walk_stdev = 0 → (sensor_call gm pow b c).gyro_bias = b.gyro_bias) ∧
    (b.mag_bias_walk_stdev = 0 → (sensor_call gm pow b c).mag_bias = b.mag_bias) ∧
    (b.baro_bias_walk_stdev = 0 → (sensor_call gm pow b c).baro_bias = b.baro_bias) ∧
    (b.airspeed_bias_walk_stdev = 0 →
      (sensor_call gm pow b c).airspeed_bias = b.airspeed_bias) := by
  cases c with
  | imu world now_us =>
    refine ⟨fun h => ?_, fun h => ?_, fun _ => rfl, fun _ => rfl, fun _ => rfl⟩
    · simp only [sensor_call, imu_read, h, add_normal_zero]
    · simp only [sensor_call, imu_read, h, add_normal_zero]
  | mag world =>
    refine ⟨fun _ => rfl, fun _ => rfl, fun h => ?_, fun _ => rfl, fun _ => rfl⟩
    simp only [sensor_call, mag_read, h, add_normal_zero]
  | baro world =>
    refine ⟨fun _ => rfl, fun _ => rfl, fun _ => rfl, fun h => ?_, fun _ => rfl⟩
    simp only [sensor_call, baro_read, h, zero_mul, add_zero]
  | diff_pressure world =>
    refine ⟨fun _ => rfl, fun _ => rfl, fun _ => rfl, fun _ => rfl, fun h => ?_⟩
    simp only [sensor_call, diff_pressure_read, h, zero_mul, add_zero]
  | sonar world =>
    obtain ⟨g, hg⟩ := sonar_read_keeps b world
    show (_ → (sonar_read b world).2.acc_bias = _) ∧
      (_ → (sonar_read b world).2.gyro_bias = _) ∧
      (_ → (sonar_read b world).2.mag_bias = _) ∧
      (_ → (sonar_read b world).2.baro_bias = _) ∧
      (_ → (sonar_read b world).2.airspeed_bias = _)
    rw [hg]
    exact ⟨fun _ => rfl, fun _ => rfl, fun _ => rfl, fun _ => rfl, fun _ => rfl⟩

/-- C11: with a bias walk deviation of 0 the bias is invariant across any number of
reads.  For every engine (every sequence of Gaussian draws), every board and
every sequence of sensor reads, each at its own Gazebo state, in particular `n`
calls of one read function: if `acc_bias_walk_stdev = 0` the accelerometer
bias after the sequence is the bias before it, and likewise the gyro bias for
`gyro_bias_walk_stdev = 0`, the magnetometer bias for
`mag_bias_walk_stdev = 0`, the barometer bias for `baro_bias_walk_stdev = 0`
and the airspeed bias for `airspeed_bias_walk_stdev = 0`. -/
theorem bias_invariant_without_walk [LinearOrderedField R] (gm : GazeboMath R)
    (pow : R → R → R) (b : SIL_Board R) (reads : List (SensorCall R)) :
    (b.acc_bias_walk_stdev = 0 → (sensor_calls gm pow b reads).acc_bias = b.acc_bias) ∧
    (b.gyro_bias_walk_stdev = 0 → (sensor_calls gm pow b reads).gyro_bias = b.gyro_bias) ∧
    (b.mag_bias_walk_stdev = 0 → (sensor_calls gm pow b reads).mag_bias = b.mag_bias) ∧
    (b.baro_bias_walk_stdev = 0 → (sensor_calls gm pow b reads).baro_bias = b.baro_bias) ∧
    (b.airspeed_bias_walk_stdev = 0 →
      (sensor_calls gm pow b reads).airspeed_bias = b.airspeed_bias) := by
  induction reads generalizing b with
  | nil => exact ⟨fun _ => rfl, fun _ => rfl, fun _ => rfl, fun _ => rfl, fun _ => rfl⟩
  | cons c rest ih =>
    obtain ⟨w1, w2, w3, w4, w5⟩ := sensor_call_walk gm pow b c
    obtain ⟨s1, s2, s3, s4, s5⟩ := sensor_call_bias gm pow b c
    obtain ⟨i1, i2, i3, i4, i5⟩ := ih (sensor_call gm pow b c)
    simp only [sensor_calls]
    refine ⟨fun h => ?_, fun h => ?_, fun h => ?_, fun h => ?_, fun h => ?_⟩
    · rw [i1 (w1.trans h), s1 h]
    · rw [i2 (w2.trans h), s2 h]
    · rw [i3 (w3.trans h), s3 h]
    · rw [i4 (w4.trans h), s4 h]
    · rw [i5 (w5.trans h), s5 h]

/-- C11 on a concrete run: three IMU reads, a magnetometer, a barometer and an
airspeed read on a board with all walk deviations 0 leave the accelerometer
bias at its value before the first read. -/
theorem bias_invariant_without_walk_witness :
    (sensor_calls axisMath (fun x _ => x) steadyBoard
      [SensorCall.imu (still 0 1) 0, SensorCall.imu (still 0.001 1) 1000,
        SensorCall.mag (still 0.001 1), SensorCall.baro (still 0.001 1),
        SensorCall.diff_pressure (still 0.001 1), SensorCall.imu (still 0.002 1) 2000]).acc_bias
      = steadyBoard.acc_bias :=
  (bias_invariant_without_walk axisMath (fun x _ => x) steadyBoard
    [SensorCall.imu (still 0 1) 0, SensorCall.imu (still 0.001 1) 1000,
      SensorCall.mag (still 0.001 1), SensorCall.baro (still 0.001 1),
      SensorCall.diff_pressure (still 0.001 1), SensorCall.imu (still 0.002 1) 2000]).1 rfl

/-! ## Barometer: theorems -/

/-- C13: in `imu_read` the measurement noise is gated by the motor state and the bias
walk is not.  Let `a` be the body acceleration: `RotateVectorReverse` of the
link rotation applied to `a_world - gravity`, or to `-gravity` when the length
of the relative velocity is below 0.05; let `n` be the normal draws of the
engine and `k` the number of draws made so far.  `motors_spinning` is true
exactly when `pwm_outputs[2] > 1100`.  If it is false the accelerometer output
is `(x, -y, -z)` of `a + acc_bias'` and the gyro output is `(x, -y, -z)` of
`omega + gyro_bias'`, with no noise term, where `acc_bias'` is
`acc_bias + acc_bias_walk_stdev * (n k, n (k+1), n (k+2))` and `gyro_bias'` is
`gyro_bias + gyro_bias_walk_stdev * (n (k+3), n (k+4), n (k+5))`.  If it is
true the outputs are `(x, -y, -z)` of
`a + acc_stdev * (n k, n (k+1), n (k+2)) + acc_bias'` and of
`omega + gyro_stdev * (n (k+6), n (k+7), n (k+8)) + gyro_bias'`, with the bias
walks on the draws from `k+3` and from `k+9`.  In both cases the walked biases
are stored in the board and added to the output. -/
theorem imu_read_noise_gated [LinearOrderedField R] (b : SIL_Board R) (world : Gazebo R)
    (gm : GazeboMath R) (now_us : Nat) (a : Vector3d R) (n : Nat → R) (k : Nat)
    (ha : a =
      if gm.Length world.RelativeLinearVel < 0.05 then
        gm.RotateVectorReverse world.WorldPose.Rot
          ⟨-b.gravity.X, -b.gravity.Y, -b.gravity.Z⟩
      else
        gm.RotateVectorReverse world.WorldPose.Rot
          ⟨world.WorldLinearAccel.X - b.gravity.X, world.WorldLinearAccel.Y - b.gravity.Y,
            world.WorldLinearAccel.Z - b.gravity.Z⟩)
    (hn : n = b.random_generator.normal) (hk : k = b.random_generator.used) :
    (motors_spinning b = true ↔ b.pwm_outputs 2 > 1100) ∧
    (motors_spinning b = false →
      (imu_read b world gm now_us).2.acc_bias =
        ⟨b.acc_bias.X + b.acc_bias_walk_stdev * n k,
          b.acc_bias.Y + b.acc_bias_walk_stdev * n (k + 1),
          b.acc_bias.Z + b.acc_bias_walk_stdev * n (k + 2)⟩ ∧
      (imu_read b world gm now_us).2.gyro_bias =
        ⟨b.gyro_bias.X + b.gyro_bias_walk_stdev * n (k + 3),
          b.gyro_bias.Y + b.gyro_bias_walk_stdev * n (k + 4),
          b.gyro_bias.Z + b.gyro_bias_walk_stdev * n (k + 5)⟩ ∧
      (imu_read b world gm now_us).1.accel =
        ⟨a.X + (b.acc_bias.X + b.acc_bias_walk_stdev * n k),
          -(a.Y + (b.acc_bias.Y + b.acc_bias_walk_stdev * n (k + 1))),
          -(a.Z + (b.acc_bias.Z + b.acc_bias_walk_stdev * n (k + 2)))⟩ ∧
      (imu_read b world gm now_us).1.gyro =
        ⟨world.RelativeAngularVel.X + (b.gyro_bias.X + b.gyro_bias_walk_stdev * n (k + 3)),
          -(world.RelativeAngularVel.Y
            + (b.gyro_bias.Y + b.gyro_bias_walk_stdev * n (k + 4))),
          -(world.RelativeAngularVel.Z
            + (b.gyro_bias.Z + b.gyro_bias_walk_stdev * n (k + 5)))⟩ ∧
      (imu_read b world gm now_us).2.random_generator.used = k + 6) ∧
    (motors_spinning b = true →
      (imu_read b world gm now_us).2.acc_bias =
        ⟨b.acc_bias.X + b.acc_bias_walk_stdev * n (k + 3),
          b.acc_bias.Y + b.acc_bias_walk_stdev * n (k + 4),
          b.acc_bias.Z + b.acc_bias_walk_stdev * n (k + 5)⟩ ∧
      (imu_read b world gm now_us).2.gyro_bias =
        ⟨b.gyro_bias.X + b.gyro_bias_walk_stdev * n (k + 9),
          b.gyro_bias.Y + b.gyro_bias_walk_stdev * n (k + 10),
          b.gyro_bias.Z + b.gyro_bias_walk_stdev * n (k + 11)⟩ ∧
      (imu_read b world gm now_us).1.accel =
        ⟨a.X + b.acc_stdev * n k + (b.acc_bias.X + b.acc_bias_walk_stdev * n (k + 3)),
          -(a.Y + b.acc_stdev * n (k + 1)
            + (b.acc_bias.Y + b.acc_bias_walk_stdev * n (k + 4))),
          -(a.Z + b.acc_stdev * n (k + 2)
            + (b.acc_bias.Z + b.acc_bias_walk_stdev * n (k + 5)))⟩ ∧
      (imu_read b world gm now_us).1.gyro =
        ⟨world.RelativeAngularVel.X + b.gyro_stdev * n (k + 6)
            + (b.gyro_bias.X + b.gyro_bias_walk_stdev * n (k + 9)),
          -(world.RelativeAngularVel.Y + b.gyro_stdev * n (k + 7)
            + (b.gyro_bias.Y + b.gyro_bias_walk_stdev * n (k + 10))),
          -(world.RelativeAngularVel.Z + b.gyro_stdev * n (k + 8)
            + (b.gyro_bias.Z + b.gyro_bias_walk_stdev * n (k + 11)))⟩ ∧
      (imu_read b world gm now_us).2.random_generator.used = k + 12) := by
  subst ha hn hk
  refine ⟨?_, ?_, ?_⟩
  · simp [motors_spinning]
  · intro h
    simp only [imu_read, h]
    exact ⟨rfl, rfl, rfl, rfl, rfl⟩
  · intro h
    simp only [imu_read, h]
    exact ⟨rfl, rfl, rfl, rfl, rfl⟩

/-- C13 on two concrete boards at rest at height 1, gravity `(0, 0, -9.8)`, biases 0.5,
walk deviations 0, noise deviations 1 and normal draws 1, 2, 3, ...: with the
motors off the outputs carry no noise, with the throttle output at 1500 the
draws 1, 2, 3 and 7, 8, 9 are added before the conversion. -/
theorem imu_read_noise_gated_witness :
    ((imu_read steadyBoard (still 0 1) axisMath 7).1.accel = ⟨0.5, -0.5, -10.3⟩ ∧
      (imu_read steadyBoard (still 0 1) axisMath 7).1.gyro = ⟨0.5, -0.5, -0.5⟩) ∧
    ((imu_read spinningBoard (still 0 1) axisMath 7).1.accel = ⟨1.5, -2.5, -13.3⟩ ∧
      (imu_read spinningBoard (still 0 1) axisMath 7).1.gyro = ⟨7.5, -8.5, -9.5⟩) := by
  have hoff :=
    (imu_read_noise_gated steadyBoard (still 0 1) axisMath 7 _ _ _ rfl rfl rfl).2.1 rfl
  have hon :=
    (imu_read_noise_gated spinningBoard (still 0 1) axisMath 7 _ _ _ rfl rfl rfl).2.2 rfl
  refine ⟨⟨?_, ?_⟩, ⟨?_, ?_⟩⟩
  · rw [hoff.2.2.1]
    norm_num [steadyBoard, still, axisMath, blank]
  · rw [hoff.2.2.2.1]
    norm_num [steadyBoard, still, axisMath, blank]
  · rw [hon.2.2.1]
    norm_num [spinningBoard, steadyBoard, still, axisMath, blank]
  · rw [hon.2.2.2.1]
    norm_num [spinningBoard, steadyBoard, still, axisMath, blank]

/-! ## Magnetometer: theorems -/

theorem gazebo_setup_magnetic_field [LinearOrderedField R] [FloorRing R]
    (b0 : SIL_Board R) (world : Gazebo R) (nh : NodeHandle R) (mav_type : String)
    (seeded : RandomGenerator R) (m : Libm R) (b1 : SIL_Board R)
    (h : gazebo_setup b0 world nh mav_type seeded m = some b1) :
    b1.inertial_magnetic_field =
      ⟨m.cos (-(param nh.inclination 1.14316156541))
          * m.cos (-(param nh.declination 0.198584539676)),
        m.cos (-(param nh.inclination 1.14316156541))
          * m.sin (-(param nh.declination 0.198584539676)),
        m.sin (-(param nh.inclination 1.14316156541))⟩ := by
  unfold gazebo_setup at h
  simp only [Option.map_eq_some'] at h
  obtain ⟨p, -, hb⟩ := h
  subst hb
  rfl

theorem sensors_init_magnetic_field [LinearOrderedField R] (b : SIL_Board R) (m : Libm R) :
    (sensors_init b m).inertial_magnetic_field =
      ⟨m.cos (-1.14316156541) * m.cos (-0.198584539676),
        m.cos (-1.14316156541) * m.sin (-0.198584539676),
        m.sin (-1.14316156541)⟩ :=
  rfl

theorem magnetic_field_unit_norm (i d : ℝ) :
    (Real.cos (-i) * Real.cos (-d)) ^ 2 + (Real.cos (-i) * Real.sin (-d)) ^ 2
      + Real.sin (-i) ^ 2 = 1 := by
  have h1 := Real.sin_sq_add_cos_sq (-i)
  have h2 := Real.sin_sq_add_cos_sq (-d)
  nlinarith [h1, h2, sq_nonneg (Real.cos (-i))]

theorem mag_read_measurement [LinearOrderedField R] (b : SIL_Board R) (world : Gazebo R)
    (gm : GazeboMath R) :
    (mag_read b world gm).2.mag_bias = b.mag_bias.add
      ((b.random_generator.normal3 (b.random_generator.used + 3)).scale
        b.mag_bias_walk_stdev) ∧
    (mag_read b world gm).1
      = to_NED (((gm.RotateVectorReverse world.WorldPose.Rot b.inertial_magnetic_field).add
          (mag_read b world gm).2.mag_bias).add
          ((b.random_generator.normal3 b.random_generator.used).scale b.mag_stdev)) :=
  ⟨rfl, rfl⟩

theorem sin_default_inclination_neg : Real.sin (-1.14316156541) < 0 := by
  rw [Real.sin_neg, neg_lt_zero]
  apply Real.sin_pos_of_pos_of_lt_pi (by norm_num)
  have := Real.pi_gt_three
  linarith

/-- C14 at the failing input: with `inclination = 0` and `declination = 0` configured,
`gazebo_setup` leaves the field `(1, 0, 0)` of the claim, but `sensors_init`,
which the firmware runs afterwards, sets the field again from the two
constants written in it: the vertical component is then
`sin(-1.14316156541) < 0` and not `sin(-0) = 0`. -/
theorem sensors_init_ignores_configured_field :
    ∃ b1, gazebo_setup (blank ℝ) (still 0 0) (withMagneticAngles ℝ 0 0) "multirotor"
        ⟨fun _ => 0, fun _ => 0, 0⟩ ⟨Real.sin, Real.cos⟩ = some b1 ∧
      b1.inertial_magnetic_field = ⟨1, 0, 0⟩ ∧
      (sensors_init b1 ⟨Real.sin, Real.cos⟩).inertial_magnetic_field.Z
        = Real.sin (-1.14316156541) ∧
      (sensors_init b1 ⟨Real.sin, Real.cos⟩).inertial_magnetic_field.Z < 0 ∧
      Real.sin (-(0 : ℝ)) = 0 := by
  have h0 : param (withMagneticAngles ℝ 0 0).imu_update_rate 1000.0 ≠ 0 := by
    norm_num [param, withMagneticAngles, unconfigured]
  have hp : toUnsigned 64 ((1e6 : ℝ) / param (withMagneticAngles ℝ 0 0).imu_update_rate 1000.0)
      = some 1000 := by
    have e : (1e6 : ℝ) / param (withMagneticAngles ℝ 0 0).imu_update_rate 1000.0
        = ((1000 : ℕ) : ℝ) := by
      norm_num [param, withMagneticAngles, unconfigured]
    rw [e]
    exact toUnsigned_natCast 64 1000 (by norm_num)
  obtain ⟨b1, h, -, -⟩ := gazebo_setup_defined (blank ℝ) (still 0 0)
    (withMagneticAngles ℝ 0 0) "multirotor" ⟨fun _ => 0, fun _ => 0, 0⟩
    ⟨Real.sin, Real.cos⟩ 1000 h0 hp
  refine ⟨b1, h, ?_, rfl, sin_default_inclination_neg, by simp⟩
  rw [gazebo_setup_magnetic_field _ _ _ _ _ _ _ h]
  simp [param, withMagneticAngles]

/-! ## Frame conversion in the plugin: theorems -/

theorem publishTruth_orientation [LinearOrderedField R] (pose : Pose3d R)
    (vel omega : Vector3d R) :
    (publishTruth pose vel omega).2.orientation
      = ⟨pose.Rot.W, pose.Rot.X, -pose.Rot.Y, -pose.Rot.Z⟩ := by
  norm_num [publishTruth]

theorem publishTruth_vectors [LinearOrderedField R] (pose : Pose3d R)
    (vel omega : Vector3d R) :
    (publishTruth pose vel omega).2.position = to_NED pose.Pos ∧
    (publishTruth pose vel omega).2.linear = to_NED vel ∧
    (publishTruth pose vel omega).2.angular = to_NED omega := by
  norm_num [publishTruth, to_NED]

theorem OnUpdate_vectors [LinearOrderedField R] (pose : Pose3d R) (vel omega : Vector3d R)
    (simTime : R) :
    (OnUpdate pose vel omega simTime).pos = vec3_to_eigen_from_gazebo (to_NED pose.Pos) ∧
    (OnUpdate pose vel omega simTime).vel = vec3_to_eigen_from_gazebo (to_NED vel) ∧
    (OnUpdate pose vel omega simTime).omega = vec3_to_eigen_from_gazebo (to_NED omega) := by
  refine ⟨?_, ?_, ?_⟩ <;>
    · funext i
      fin_cases i <;>
        simp [OnUpdate, NWU_to_NED, vec3_to_eigen_from_gazebo, to_NED, Matrix.mulVec,
          Matrix.dotProduct, Fin.sum_univ_three]

theorem toRotationMatrix_NED [LinearOrderedField R] (q : Quaterniond R) :
    toRotationMatrix ⟨q.W, q.X, -q.Y, -q.Z⟩
      = NWU_to_NED * toRotationMatrix q * NWU_to_NED := by
  ext i j
  fin_cases i <;> fin_cases j <;>
    simp [toRotationMatrix, NWU_to_NED, Matrix.mul_apply, Fin.sum_univ_three,
      Matrix.vecHead, Matrix.vecTail] <;>
    ring

/-- C15 at the failing input: for the identity quaternion `(1, 0, 0, 0)` the rotation
that `OnUpdate` hands to the dynamics model, `NWU_to_NED * R(q)`, is
`diag(1, -1, -1)`, while the rotation matrix of the quaternion that
`publishTruth` publishes in the output frame, `(1, 0, -0, -0)`, is the
identity: the two differ. -/
theorem OnUpdate_rotation_differs :
    (OnUpdate (R := ℚ) ⟨⟨0, 0, 0⟩, ⟨1, 0, 0, 0⟩⟩ ⟨0, 0, 0⟩ ⟨0, 0, 0⟩ 0).rot
      = !![1, 0, 0; 0, -1, 0; 0, 0, -1] ∧
    toRotationMatrix
        (publishTruth (R := ℚ) ⟨⟨0, 0, 0⟩, ⟨1, 0, 0, 0⟩⟩ ⟨0, 0, 0⟩ ⟨0, 0, 0⟩).2.orientation
      = !![1, 0, 0; 0, 1, 0; 0, 0, 1] ∧
    (OnUpdate (R := ℚ) ⟨⟨0, 0, 0⟩, ⟨1, 0, 0, 0⟩⟩ ⟨0, 0, 0⟩ ⟨0, 0, 0⟩ 0).rot ≠
      toRotationMatrix
        (publishTruth (R := ℚ) ⟨⟨0, 0, 0⟩, ⟨1, 0, 0, 0⟩⟩ ⟨0, 0, 0⟩ ⟨0, 0, 0⟩).2.orientation := by
  have h1 : (OnUpdate (R := ℚ) ⟨⟨0, 0, 0⟩, ⟨1, 0, 0, 0⟩⟩ ⟨0, 0, 0⟩ ⟨0, 0, 0⟩ 0).rot
      = !![1, 0, 0; 0, -1, 0; 0, 0, -1] := by
    ext i j
    fin_cases i <;> fin_cases j <;>
      simp [OnUpdate, rotation_to_eigen_from_gazebo, toRotationMatrix, NWU_to_NED,
        Matrix.mul_apply, Fin.sum_univ_three, Matrix.vecHead, Matrix.vecTail]
  have h2 : toRotationMatrix
      (publishTruth (R := ℚ) ⟨⟨0, 0, 0⟩, ⟨1, 0, 0, 0⟩⟩ ⟨0, 0, 0⟩ ⟨0, 0, 0⟩).2.orientation
      = !![1, 0, 0; 0, 1, 0; 0, 0, 1] := by
    ext i j
    fin_cases i <;> fin_cases j <;>
      simp [publishTruth, toRotationMatrix, Matrix.vecHead, Matrix.vecTail]
  refine ⟨h1, h2, ?_⟩
  rw [h1, h2]
  intro h
  have h11 := congrFun (congrFun h 1) 1
  norm_num at h11

/-! ## Sonar in range: theorems -/

/-- C16: the in-range branch of `sonar_read` is not clamped after the noise is added.
With range 0.25 to 8 and deviation 1.15, at the altitude 7 inside the range, a
draw of 2 gives the reading 9.3 above `sonar_max_range`, and a draw of -6 gives
the reading 0.1 below `sonar_min_range`. -/
theorem sonar_read_unclamped_in_range :
    ∃ (b : SIL_Board ℚ) (world : Gazebo ℚ) (g1 g2 : RandomGenerator ℚ),
      b.sonar_min_range ≤ b.sonar_max_range ∧ 0 < b.sonar_stdev ∧
      b.sonar_min_range ≤ world.WorldPose.Pos.Z ∧
      world.WorldPose.Pos.Z ≤ b.sonar_max_range ∧
      (sonar_read { b with random_generator := g1 } world).1 > b.sonar_max_range ∧
      (sonar_read { b with random_generator := g2 } world).1 < b.sonar_min_range := by
  refine ⟨sonarBoard, still 0 7, ⟨fun _ => 2, fun _ => 0, 0⟩, ⟨fun _ => -6, fun _ => 0, 0⟩,
    ?_, ?_, ?_, ?_, ?_, ?_⟩ <;>
    norm_num [sonar_read, sonarBoard, still, normal_distribution, blank]

end rosflight_sim
